import Mathlib

/-!
Verification development for the cosmic-randr client library.

The Rust sources are shallowly embedded: machine integers are modelled as
`Int`/`Nat` (no claim exercises wraparound), `f32`/`f64` values as `ℚ` with
the `as i32` cast modelled as truncation toward zero, hash maps and insertion
ordered index maps as association lists, and protocol side effects (requests
written to the wire) as an explicit request log.  Remote object handles are
identified by their protocol object id (`Nat`).  A Rust panic is modelled by
returning `none`.
-/

namespace CosmicRandr

/-- Output transform, one of the 8 rotation/flip states of wl_output. -/
inductive Transform
  | normal | rot90 | rot180 | rot270
  | flipped | flipped90 | flipped180 | flipped270
deriving DecidableEq, Repr

/-- Base-protocol adaptive sync state (zwlr_output_head_v1). -/
inductive AdaptiveSyncState
  | enabled | disabled
deriving DecidableEq, Repr

/-- Extension adaptive sync state (zcosmic_output_head_v1), a tri-state. -/
inductive AdaptiveSyncStateExt
  | always | automatic | disabled
deriving DecidableEq, Repr

/-- Extension adaptive sync availability report. -/
inductive AdaptiveSyncAvailability
  | supported | requires_modeset | unsupported
deriving DecidableEq, Repr

/-- Terminal/edge notifications delivered through the message channel
(src/lib/src/lib.rs, enum Message). -/
inductive Message
  | configuration_cancelled
  | configuration_failed
  | configuration_succeeded
  | manager_done
  | manager_finished
  | unsupported
deriving DecidableEq, Repr

/-- Validation errors of a configuration transaction
(src/lib/src/context.rs, enum ConfigurationError). -/
inductive ConfigurationError
  | OutputAlreadyConfigured
  | UnknownOutput
  | ModeNotFound
  | NoCosmicExtension
  | PositionForMirroredOutput
  | MirroringItself
  | UnsupportedVrrState
  | UnsupportedXwaylandPrimary
deriving DecidableEq, Repr

/-- Protocol requests emitted by a configuration transaction.  Each
constructor models one outgoing request of context.rs; object arguments are
identified by the protocol object id of the referenced head or mode. -/
inductive Request
  | disable_head (head : Nat)
  | enable_head (head : Nat)
  | get_configuration_head
  | mirror_head (head : Nat) (mirrored : Nat)
  | set_scale_1000 (value : Int)
  | set_scale (value : ℚ)
  | set_transform (t : Transform)
  | set_position (x y : Int)
  | set_adaptive_sync_ext (s : AdaptiveSyncStateExt)
  | set_adaptive_sync (s : AdaptiveSyncState)
  | set_mode (mode : Nat)
  | test
  | apply
deriving DecidableEq, Repr

/-- Mirror of a remote mode object (src/lib/src/output_mode.rs,
struct OutputMode); `wlr_mode` is the protocol object id of the handle. -/
structure OutputMode where
  width : Int
  height : Int
  refresh : Int
  preferred : Bool
  wlr_mode : Nat
deriving DecidableEq, Repr

/-- OutputMode::new — a fresh mode record with zeroed fields. -/
def OutputMode.new (wlr_mode : Nat) : OutputMode :=
  { width := 0, height := 0, refresh := 0, preferred := false, wlr_mode := wlr_mode }

/-- Mirror of a remote head object (src/lib/src/output_head.rs,
struct OutputHead).  `modes` models the insertion-ordered
IndexMap<ObjectId, OutputMode> as an association list. -/
structure OutputHead where
  adaptive_sync : Option AdaptiveSyncStateExt
  adaptive_sync_support : Option AdaptiveSyncAvailability
  current_mode : Option Nat
  description : String
  enabled : Bool
  make : String
  model : String
  modes : List (Nat × OutputMode)
  name : String
  physical_height : Int
  physical_width : Int
  position_x : Int
  position_y : Int
  scale : ℚ
  serial_number : String
  transform : Option Transform
  mirroring : Option String
  xwayland_primary : Option Bool
  wlr_head : Nat
  cosmic_head : Option Nat
deriving DecidableEq, Repr

/-- OutputHead::new — a fresh head record with default fields. -/
def OutputHead.new (wlr_head : Nat) (cosmic_head : Option Nat) : OutputHead :=
  { adaptive_sync := none
    adaptive_sync_support := none
    current_mode := none
    description := ""
    enabled := false
    make := ""
    model := ""
    modes := []
    name := ""
    physical_height := 0
    physical_width := 0
    position_x := 0
    position_y := 0
    scale := 1
    serial_number := ""
    transform := none
    mirroring := none
    xwayland_primary := none
    wlr_head := wlr_head
    cosmic_head := cosmic_head }

/-! Association-list model of keyed maps.  `imap_insert` models both
HashMap::insert and IndexMap::insert: replace in place when the key exists,
append otherwise (HashMap iteration order is irrelevant to every claim). -/

/-- Look a key up in an association list. -/
def imap_get {α : Type} (m : List (Nat × α)) (k : Nat) : Option α :=
  (m.find? (fun p => p.1 == k)).map Prod.snd

/-- Insert-or-replace preserving the position of an existing key: replace
the first occurrence in place, append when the key is absent.  The maps
built here never hold duplicate keys, so this is exactly
HashMap::insert/IndexMap::insert. -/
def imap_insert {α : Type} : List (Nat × α) → Nat → α → List (Nat × α)
  | [], k, v => [(k, v)]
  | p :: t, k, v => if p.1 == k then (k, v) :: t else p :: imap_insert t k v

/-- Remove a key, preserving the order of the remaining entries
(IndexMap::shift_remove / HashMap::remove). -/
def imap_remove {α : Type} (m : List (Nat × α)) (k : Nat) : List (Nat × α) :=
  m.filter (fun p => p.1 != k)

/-- Update the value stored at a key in place. -/
def imap_update {α : Type} (m : List (Nat × α)) (k : Nat) (f : α → α) : List (Nat × α) :=
  m.map (fun p => if p.1 == k then (p.1, f p.2) else p)

/-! Protocol object model: the event sink of §4.2, translated from the
Dispatch impls in output_manager.rs, output_head.rs and output_mode.rs.
Only the fields touched by head/mode events are modelled; connection,
queue handle, sender, serial and the sync-callback bookkeeping are I/O
plumbing no claim refers to. -/

/-- Events of zwlr_output_head_v1 handled in output_head.rs.  Enum values
arriving through WEnum are modelled post-`into_result().ok()` as `Option`;
the Enabled payload is the raw i32. -/
inductive HeadEvent
  | name (name : String)
  | description (description : String)
  | physical_size (width height : Int)
  | mode (mode : Nat)
  | enabled (enabled : Int)
  | current_mode (mode : Nat)
  | position (x y : Int)
  | transform (transform : Option Transform)
  | scale (scale : ℚ)
  | finished
  | make (make : String)
  | model (model : String)
  | serial_number (serial_number : String)
  | adaptive_sync (state : Option AdaptiveSyncState)
deriving DecidableEq, Repr

/-- Events of zwlr_output_mode_v1 handled in output_mode.rs. -/
inductive ModeEvent
  | size (width height : Int)
  | refresh (refresh : Int)
  | preferred
  | finished
deriving DecidableEq, Repr

/-- Client-side object-model state (src/lib/src/context.rs, struct Context,
restricted to the event-sink fields).  `mode_data` models the per-mode
`Mutex<Option<ObjectId>>` user data: the owning head id recorded when the
head announces the mode. -/
structure Context where
  output_heads : List (Nat × OutputHead)
  mode_data : List (Nat × Nat)
deriving DecidableEq, Repr

/-- The empty object model. -/
def Context.empty : Context := { output_heads := [], mode_data := [] }

/-- Replace the record stored for a head id (the effect of mutating through
`output_heads.get_mut`). -/
def Context.set_head (st : Context) (headId : Nat) (h : OutputHead) : Context :=
  { st with output_heads := imap_insert st.output_heads headId h }

/-- Dispatch of one zwlr_output_head_v1 event (output_head.rs).  The source
panics (`expect "Inert WlrOutputHead"`) when the head id is unknown; that
protocol violation is modelled as a no-op since execution never continues
past it.  The version-gated `release()` on Finished is a remote call with no
local state. -/
def applyHeadEvent (st : Context) (headId : Nat) (ev : HeadEvent) : Context :=
  match imap_get st.output_heads headId with
  | none => st
  | some head =>
    match ev with
    | .name n => st.set_head headId ({ head with name := n })
    | .description d => st.set_head headId ({ head with description := d })
    | .physical_size w h => st.set_head headId ({ head with physical_width := w, physical_height := h })
    | .mode modeId =>
        let st1 := { st with mode_data := imap_insert st.mode_data modeId headId }
        st1.set_head headId ({ head with modes := imap_insert head.modes modeId (OutputMode.new modeId) })
    | .enabled e => st.set_head headId ({ head with enabled := !(e == 0) })
    | .current_mode modeId => st.set_head headId ({ head with current_mode := some modeId })
    | .position x y => st.set_head headId ({ head with position_x := x, position_y := y })
    | .transform t => st.set_head headId ({ head with transform := t })
    | .scale s => st.set_head headId ({ head with scale := s })
    | .finished => { st with output_heads := imap_remove st.output_heads headId }
    | .make m => st.set_head headId ({ head with make := m })
    | .model m => st.set_head headId ({ head with model := m })
    | .serial_number s => st.set_head headId ({ head with serial_number := s })
    | .adaptive_sync s =>
        let v : Option AdaptiveSyncStateExt :=
          match s with
          | some .enabled => some .always
          | some .disabled => some .disabled
          | none => none
        st.set_head headId ({ head with adaptive_sync := v })

/-- Dispatch of one zwlr_output_mode_v1 event (output_mode.rs).  Missing
user data or a missing head is an early `return` in the source (a no-op).
The handler first ensures a map entry exists (`entry().or_insert_with`),
then applies the event; Finished removes the entry with `shift_remove` and
does not touch any other head field (in particular not `current_mode`). -/
def applyModeEvent (st : Context) (modeId : Nat) (ev : ModeEvent) : Context :=
  match imap_get st.mode_data modeId with
  | none => st
  | some headId =>
    match imap_get st.output_heads headId with
    | none => st
    | some head =>
      let modes0 :=
        if head.modes.any (fun p => p.1 == modeId) then head.modes
        else head.modes ++ [(modeId, OutputMode.new modeId)]
      let modes1 :=
        match ev with
        | .size w h => imap_update modes0 modeId (fun m => { m with width := w, height := h })
        | .refresh r => imap_update modes0 modeId (fun m => { m with refresh := r })
        | .preferred => imap_update modes0 modeId (fun m => { m with preferred := true })
        | .finished => imap_remove modes0 modeId
      st.set_head headId ({ head with modes := modes1 })

/-- One received protocol event relevant to the object model: a manager Head
announcement (output_manager.rs inserts a fresh OutputHead; the extension
correlation object is not modelled, so `cosmic_head` stays `none`), or an
event addressed to an existing head or mode object. -/
inductive Ev
  | manager_head (headId : Nat)
  | head (headId : Nat) (ev : HeadEvent)
  | mode (modeId : Nat) (ev : ModeEvent)
deriving DecidableEq, Repr

/-- Apply one received event to the object model. -/
def applyEvent (st : Context) (ev : Ev) : Context :=
  match ev with
  | .manager_head headId =>
      { st with output_heads := imap_insert st.output_heads headId (OutputHead.new headId none) }
  | .head headId e => applyHeadEvent st headId e
  | .mode modeId e => applyModeEvent st modeId e

/-- Apply a sequence of received events in order. -/
def runEvents (st : Context) (evs : List Ev) : Context :=
  evs.foldl applyEvent st

end CosmicRandr

namespace CosmicRandr

/-! Configuration transaction (src/lib/src/context.rs).  The wlr and cosmic
protocol objects held by `Configuration` are modelled by presence flags plus
the request log; `known_heads` and `configured_heads` are translated
directly. -/

/-- Caller-supplied per-head configuration (context.rs, struct
HeadConfiguration).  `refresh` is the f32 hertz value, modelled as `ℚ`. -/
structure HeadConfiguration where
  size : Option (Int × Int) := none
  refresh : Option ℚ := none
  adaptive_sync : Option AdaptiveSyncStateExt := none
  pos : Option (Int × Int) := none
  scale : Option ℚ := none
  transform : Option Transform := none
deriving DecidableEq, Repr

/-- An open configuration transaction (context.rs, struct Configuration).
`cosmic_obj` models `cosmic_obj.is_some()`, `cosmic_output_manager` models
`cosmic_output_manager.is_some()`, and `adaptive_sync_ext_ok` models the
version test `cosmic_head_config.version() >= REQ_SET_ADAPTIVE_SYNC_EXT_SINCE`
on the extension configuration-head objects this transaction creates.
`requests` is the log of protocol requests sent so far. -/
structure Configuration where
  cosmic_obj : Bool
  cosmic_output_manager : Bool
  adaptive_sync_ext_ok : Bool
  known_heads : List OutputHead
  configured_heads : List String
  requests : List Request
deriving DecidableEq, Repr

/-- Truncation toward zero, the behaviour of Rust's float-to-i32 `as` cast
(saturation at the i32 bounds is irrelevant to every claim and omitted):
the numerator divided by the positive denominator with Int.div, which
rounds toward zero. -/
def ratTrunc (q : ℚ) : Int :=
  Int.tdiv q.num q.den

/-- The candidate-mode filter of `send_mode_to_config_head` (context.rs,
closure `mode_iter`): modes matching the explicit size when one is given,
else the mode whose object id equals the head's `current_mode`. -/
def mode_iter (head : OutputHead) (args : HeadConfiguration) : List OutputMode :=
  (head.modes.map Prod.snd).filter (fun mode =>
    match args.size with
    | some (width, height) => mode.width == width && mode.height == height
    | none => head.current_mode.any (fun cm => mode.wlr_mode == cm))

/-- One comparison step of Rust's `Iterator::min_by_key` over the absolute
refresh deviation: a later element replaces the accumulator only when its
key is strictly smaller, so the first minimal element wins. -/
def min_step (target : Int) (acc x : OutputMode) : OutputMode :=
  if (x.refresh - target).natAbs < (acc.refresh - target).natAbs then x else acc

/-- Rust's `Iterator::min_by_key` over the absolute refresh deviation. -/
def min_by_refresh (target : Int) : List OutputMode → Option OutputMode
  | [] => none
  | m :: ms => some (ms.foldl (min_step target) m)

/-- Mode selection under a requested refresh rate (context.rs:291):
an exact millihertz match first, else the candidate within the open window
of 501 millihertz around the request with the smallest absolute deviation.
`refresh` is the request already converted to millihertz. -/
def select_refresh_mode (head : OutputHead) (args : HeadConfiguration) (refresh : Int) :
    Option OutputMode :=
  let lo := refresh - 501
  let hi := refresh + 501
  match (mode_iter head args).find? (fun mode => mode.refresh == refresh) with
  | some m => some m
  | none =>
    min_by_refresh refresh
      ((mode_iter head args).filter
        (fun mode => decide (lo < mode.refresh) && decide (mode.refresh < hi)))

/-- Translation of `send_mode_to_config_head` (context.rs:233).  Returns the
requests sent on the configuration-head object, in source order (scale,
transform, position, adaptive sync, mode), together with the error result;
on error the already-sent requests are still reported, mirroring the
source's side effects.  `has_cosmic` models `cosmic_head_config.is_some()`. -/
def send_mode_to_config_head (head : OutputHead) (has_cosmic : Bool)
    (adaptive_sync_ext_ok : Bool) (args : HeadConfiguration) :
    List Request × Option ConfigurationError :=
  let reqs1 : List Request :=
    match args.scale with
    | some s => if has_cosmic then [.set_scale_1000 (ratTrunc (s * 1000))] else [.set_scale s]
    | none => []
  let reqs2 := reqs1 ++
    (match args.transform with
     | some t => [.set_transform t]
     | none => [])
  let reqs3 := reqs2 ++
    (match args.pos with
     | some (x, y) => [.set_position x y]
     | none => [])
  let vrrStep : Except ConfigurationError (List Request) :=
    match args.adaptive_sync with
    | none => .ok reqs3
    | some vrr =>
      if has_cosmic && adaptive_sync_ext_ok then
        .ok (reqs3 ++ [.set_adaptive_sync_ext vrr])
      else
        match vrr with
        | .always => .ok (reqs3 ++ [.set_adaptive_sync .enabled])
        | .disabled => .ok (reqs3 ++ [.set_adaptive_sync .disabled])
        | .automatic => .error .UnsupportedVrrState
  match vrrStep with
  | .error e => (reqs3, some e)
  | .ok reqs4 =>
    match args.refresh with
    | some rq =>
      match select_refresh_mode head args (ratTrunc (rq * 1000)) with
      | some m => (reqs4 ++ [.set_mode m.wlr_mode], none)
      | none => (reqs4, some .ModeNotFound)
    | none =>
      match (mode_iter head args).head? with
      | some m => (reqs4 ++ [.set_mode m.wlr_mode], none)
      | none => (reqs4, some .ModeNotFound)

/-- Translation of `Configuration::disable_head` (context.rs:105).  Note the
source pushes the name into `configured_heads` before the snapshot lookup,
so an `UnknownOutput` failure leaves the name staged. -/
def Configuration.disable_head (cfg : Configuration) (output : String) :
    Configuration × Option ConfigurationError :=
  if cfg.configured_heads.any (fun o => o == output) then
    (cfg, some .OutputAlreadyConfigured)
  else
    let cfg1 := { cfg with configured_heads := cfg.configured_heads ++ [output] }
    match cfg1.known_heads.find? (fun head => head.name == output) with
    | none => (cfg1, some .UnknownOutput)
    | some head =>
      ({ cfg1 with requests := cfg1.requests ++ [.disable_head head.wlr_head] }, none)

/-- Translation of `Configuration::enable_head` (context.rs:121). -/
def Configuration.enable_head (cfg : Configuration) (output : String)
    (mode : Option HeadConfiguration) : Configuration × Option ConfigurationError :=
  if cfg.configured_heads.any (fun o => o == output) then
    (cfg, some .OutputAlreadyConfigured)
  else
    let cfg1 := { cfg with configured_heads := cfg.configured_heads ++ [output] }
    match cfg1.known_heads.find? (fun head => head.name == output) with
    | none => (cfg1, some .UnknownOutput)
    | some head =>
      let createReqs : List Request :=
        [.enable_head head.wlr_head] ++
          (if cfg.cosmic_output_manager then [.get_configuration_head] else [])
      let cfg2 := { cfg1 with requests := cfg1.requests ++ createReqs }
      match mode with
      | none => (cfg2, none)
      | some args =>
        let r := send_mode_to_config_head head cfg.cosmic_output_manager
          cfg.adaptive_sync_ext_ok args
        ({ cfg2 with requests := cfg2.requests ++ r.1 }, r.2)

/-- Translation of `Configuration::mirror_head` (context.rs:149).  The
checks run in source order: missing extension, double staging, mirroring
itself, requested position, then the two snapshot lookups. -/
def Configuration.mirror_head (cfg : Configuration) (output mirrored : String)
    (mode : Option HeadConfiguration) : Configuration × Option ConfigurationError :=
  if !cfg.cosmic_obj then
    (cfg, some .NoCosmicExtension)
  else if cfg.configured_heads.any (fun o => o == output) then
    (cfg, some .OutputAlreadyConfigured)
  else if output == mirrored then
    (cfg, some .MirroringItself)
  else if (mode.map (fun m => m.pos.isSome)).getD false then
    (cfg, some .PositionForMirroredOutput)
  else
    let cfg1 := { cfg with configured_heads := cfg.configured_heads ++ [output] }
    match cfg1.known_heads.find? (fun head => head.name == output) with
    | none => (cfg1, some .UnknownOutput)
    | some head =>
      match cfg1.known_heads.find? (fun head => head.name == mirrored) with
      | none => (cfg1, some .UnknownOutput)
      | some srcHead =>
        let createReqs : List Request :=
          [.mirror_head head.wlr_head srcHead.wlr_head] ++
            (if cfg.cosmic_output_manager then [.get_configuration_head] else [])
        let cfg2 := { cfg1 with requests := cfg1.requests ++ createReqs }
        match mode with
        | none => (cfg2, none)
        | some args =>
          let r := send_mode_to_config_head head cfg.cosmic_output_manager
            cfg.adaptive_sync_ext_ok args
          ({ cfg2 with requests := cfg2.requests ++ r.1 }, r.2)

/-- One iteration of the auto-staging loop body (context.rs:206-214):
stage the head after its last-known state — mirrored when enabled with a
mirroring source, enabled when enabled, disabled otherwise. -/
def stage_step (cfg : Configuration) (output : OutputHead) :
    Configuration × Option ConfigurationError :=
  if output.enabled then
    match output.mirroring with
    | some fromName => cfg.mirror_head output.name fromName none
    | none => cfg.enable_head output.name none
  else
    cfg.disable_head output.name

/-- The auto-staging pass of `configure_remaining_heads` (context.rs:199):
walk the snapshot, skipping heads whose name is in the pre-pass clone of
`configured_heads`, and stage each remaining head after its last-known
state.  Every staging result is `.unwrap()`ed in the source; an error
therefore panics, modelled as `none`. -/
def configure_go (cfg : Configuration) (configured : List String) :
    List OutputHead → Option Configuration
  | [] => some cfg
  | output :: rest =>
    if configured.contains output.name then
      configure_go cfg configured rest
    else
      match (stage_step cfg output).2 with
      | some _ => none
      | none => configure_go (stage_step cfg output).1 configured rest

/-- Translation of `Configuration::configure_remaining_heads`: the snapshot
and the staged-name list are cloned before the pass. -/
def Configuration.configure_remaining_heads (cfg : Configuration) : Option Configuration :=
  configure_go cfg cfg.configured_heads cfg.known_heads

/-- Translation of `Configuration::test`: auto-stage the remaining heads,
then send the test request.  `none` models a panic in the auto-staging pass. -/
def Configuration.test (cfg : Configuration) : Option Configuration :=
  (cfg.configure_remaining_heads).map
    (fun c => { c with requests := c.requests ++ [.test] })

/-- Translation of `Configuration::apply`: auto-stage the remaining heads,
then send the apply request. -/
def Configuration.apply (cfg : Configuration) : Option Configuration :=
  (cfg.configure_remaining_heads).map
    (fun c => { c with requests := c.requests ++ [.apply] })

end CosmicRandr

namespace CosmicRandr

/-! Message channel (src/lib/src/channel.rs).  The shared state is the
queue plus the closed flag; the tokio Notify only wakes waiters and holds no
payload, so a poll of `recv` is a function of (queue, closed). -/

/-- Shared channel state. -/
structure Channel where
  queue : List Message
  closed : Bool
deriving DecidableEq, Repr

/-- Outcome of polling `Receiver::recv` once: a dequeued message, the
end-of-stream result (`recv` returns `None`), or suspension on the Notify
waiting for more work. -/
inductive RecvResult
  | msg (m : Message)
  | closedEnd
  | pend
deriving DecidableEq, Repr

/-- Sender::send — push the message onto the back of the queue (the source
pushes unconditionally; notify_one carries no state). -/
def Channel.send (c : Channel) (m : Message) : Channel :=
  { c with queue := c.queue ++ [m] }

/-- Drop for Sender — set the closed flag. -/
def Channel.drop_sender (c : Channel) : Channel :=
  { c with closed := true }

/-- One iteration of the loop in `Receiver::recv` (channel.rs:52): pop the
front of the queue if any; otherwise report end-of-stream when closed, else
suspend on the Notify. -/
def Channel.recv_poll (c : Channel) : Channel × RecvResult :=
  match c.queue with
  | m :: rest => ({ c with queue := rest }, .msg m)
  | [] => if c.closed then (c, .closedEnd) else (c, .pend)

/-- The results of `n` successive recv polls (each completed `recv` call
performs one successful poll once work is available). -/
def Channel.recv_trace (c : Channel) : Nat → List RecvResult
  | 0 => []
  | n + 1 =>
    let r := c.recv_poll
    r.2 :: r.1.recv_trace n

end CosmicRandr

namespace CosmicRandr

/-! Auto-layout algorithm (src/cli/src/align.rs).  Coordinates are the f32
fields of `Rectangle`, modelled as `ℚ`.  The source tracks
`distance(p, center) * 1.25` for the east/west sides and `distance(p,
center)` for north/south, where `distance` is the Euclidean distance
(a square root).  Squaring is strictly monotone on nonnegative reals and
every tracked value is nonnegative, so each comparison `nearest > d` is
modelled exactly by comparing squares: the square of `distance * 1.25` is
`dist_sq * (25/16)`.  The initial `f32::MAX` sentinel is modelled by
`none`. -/

/-- A point (align.rs, struct Point). -/
structure Point where
  x : ℚ
  y : ℚ
deriving DecidableEq, Repr

/-- A display rectangle (align.rs, struct Rectangle). -/
structure Rectangle where
  x : ℚ := 0
  y : ℚ := 0
  width : ℚ := 0
  height : ℚ := 0
deriving DecidableEq, Repr

/-- The square of align.rs's `distance` (Euclidean distance of two points). -/
def dist_sq (a b : Point) : ℚ :=
  (b.x - a.x) ^ 2 + (b.y - a.y) ^ 2

/-- Which side of the nearest candidate the moved rectangle attaches to. -/
inductive NearestSide
  | east | north | south | west
deriving DecidableEq, Repr

/-- Rectangular::center_x. -/
def Rectangle.center_x (r : Rectangle) : ℚ := r.x + r.width / 2

/-- Rectangular::center_y. -/
def Rectangle.center_y (r : Rectangle) : ℚ := r.y + r.height / 2

/-- Rectangular::center. -/
def Rectangle.center (r : Rectangle) : Point := { x := r.center_x, y := r.center_y }

/-- Rectangular::east_point — midpoint of the left edge. -/
def Rectangle.east_point (r : Rectangle) : Point := { x := r.x, y := r.center_y }

/-- Rectangular::north_point — midpoint of the top edge. -/
def Rectangle.north_point (r : Rectangle) : Point := { x := r.center_x, y := r.y }

/-- Rectangular::west_point — midpoint of the right edge. -/
def Rectangle.west_point (r : Rectangle) : Point := { x := r.x + r.width, y := r.center_y }

/-- Rectangular::south_point — midpoint of the bottom edge. -/
def Rectangle.south_point (r : Rectangle) : Point := { x := r.center_x, y := r.y + r.height }

/-- The squared comparison value the scan loop tracks for one candidate and
side: `(distance(side_point, center) * 1.25)^2 = dist_sq * 25/16` for
east/west, `distance^2 = dist_sq` for north/south. -/
def side_score (new_region other : Rectangle) : NearestSide → ℚ
  | .east => dist_sq other.east_point new_region.center * (25 / 16)
  | .west => dist_sq other.west_point new_region.center * (25 / 16)
  | .north => dist_sq other.north_point new_region.center
  | .south => dist_sq other.south_point new_region.center

/-- Comparison `nearest > v` with `none` standing for the initial
`f32::MAX` sentinel. -/
def opt_gt (nearest : Option ℚ) (v : ℚ) : Bool :=
  match nearest with
  | none => true
  | some a => decide (v < a)

/-- Accumulator of the scan loop: tracked minimum, its side, and the
`nearer` flag of the current iteration. -/
structure ScanAcc where
  nearest : Option ℚ
  nearest_side : NearestSide
  nearer : Bool
deriving DecidableEq, Repr

/-- One of the four `if nearest > v` updates in the scan loop. -/
def scan_upd (acc : ScanAcc) (v : ℚ) (s : NearestSide) : ScanAcc :=
  if opt_gt acc.nearest v then { nearest := some v, nearest_side := s, nearer := true } else acc

/-- Selection state threaded through the scan loop (the three `nearest*`
locals of align.rs `display`). -/
structure SelState where
  nearest : Option ℚ := none
  nearest_region : Rectangle := {}
  nearest_side : NearestSide := .east
deriving DecidableEq, Repr

/-- One iteration of the candidate scan (align.rs:7): test the four sides in
the order east, west, north, south, and adopt the candidate as
`nearest_region` when any side produced a new minimum. -/
def scan_step (new_region : Rectangle) (st : SelState) (other : Rectangle) : SelState :=
  let center := new_region.center
  let a0 : ScanAcc := { nearest := st.nearest, nearest_side := st.nearest_side, nearer := false }
  let a1 := scan_upd a0 (dist_sq other.east_point center * (25 / 16)) .east
  let a2 := scan_upd a1 (dist_sq other.west_point center * (25 / 16)) .west
  let a3 := scan_upd a2 (dist_sq other.north_point center) .north
  let a4 := scan_upd a3 (dist_sq other.south_point center) .south
  { nearest := a4.nearest
    nearest_side := a4.nearest_side
    nearest_region := if a4.nearer then other else st.nearest_region }

/-- The full candidate scan of align.rs `display`. -/
def select_nearest (new_region : Rectangle) (others : List Rectangle) : SelState :=
  others.foldl (scan_step new_region) {}

/-- Attachment phase of align.rs `display` (lines 39-79): place the moved
rectangle flush against the chosen side, then clamp the perpendicular
coordinate with `max`/`min` so at least 4 pixels overlap on each end. -/
def attach (new_region : Rectangle) (nearest_region : Rectangle) :
    NearestSide → Rectangle
  | .east =>
    let r1 := { new_region with x := nearest_region.x - new_region.width }
    let yv := min (max r1.y (nearest_region.y - r1.height + 4))
      (nearest_region.y + nearest_region.height - 4)
    { r1 with y := yv }
  | .north =>
    let r1 := { new_region with y := nearest_region.y - new_region.height }
    let xv := min (max r1.x (nearest_region.x - r1.width + 4))
      (nearest_region.x + nearest_region.width - 4)
    { r1 with x := xv }
  | .west =>
    let r1 := { new_region with x := nearest_region.x + nearest_region.width }
    let yv := min (max r1.y (nearest_region.y - r1.height + 4))
      (nearest_region.y + nearest_region.height - 4)
    { r1 with y := yv }
  | .south =>
    let r1 := { new_region with y := nearest_region.y + nearest_region.height }
    let xv := min (max r1.x (nearest_region.x - r1.width + 4))
      (nearest_region.x + nearest_region.width - 4)
    { r1 with x := xv }

/-- X-axis snap of align.rs `display` (lines 81-91): align to the leading
edge when within 4 pixels, then to the trailing edge when within 4 pixels. -/
def snap_x (nearest_region r : Rectangle) : Rectangle :=
  let r1 := if |r.x - nearest_region.x| ≤ 4 then { r with x := nearest_region.x } else r
  if |r1.x + r1.width - (nearest_region.x + nearest_region.width)| ≤ 4 then
    { r1 with x := nearest_region.x + nearest_region.width - r1.width }
  else r1

/-- Y-axis snap of align.rs `display` (lines 93-104). -/
def snap_y (nearest_region r : Rectangle) : Rectangle :=
  let r1 := if |r.y - nearest_region.y| ≤ 4 then { r with y := nearest_region.y } else r
  if |r1.y + r1.height - (nearest_region.y + nearest_region.height)| ≤ 4 then
    { r1 with y := nearest_region.y + nearest_region.height - r1.height }
  else r1

/-- align.rs `display`: scan for the nearest candidate and side, attach,
then snap both axes; returns the final moved rectangle. -/
def display (new_region : Rectangle) (other_displays : List Rectangle) : Rectangle :=
  let sel := select_nearest new_region other_displays
  let attached := attach new_region sel.nearest_region sel.nearest_side
  snap_y sel.nearest_region (snap_x sel.nearest_region attached)

/-- Modelled from the spec claim for comparison (C7's words): squared
Euclidean distance to the east/west edge midpoints multiplied by 1.25,
north/south unweighted.  This is the rule the claim states; it differs from
the source, which multiplies the unsquared distance by 1.25. -/
def claimed_side_score (new_region other : Rectangle) : NearestSide → ℚ
  | .east => dist_sq other.east_point new_region.center * (5 / 4)
  | .west => dist_sq other.west_point new_region.center * (5 / 4)
  | .north => dist_sq other.north_point new_region.center
  | .south => dist_sq other.south_point new_region.center

end CosmicRandr

namespace CosmicRandr

/-! General lemmas about the association-list maps. -/

/-- Looking up the inserted key yields the inserted value. -/
theorem imap_get_insert_self {α : Type} (k : Nat) (v : α) :
    ∀ m : List (Nat × α), imap_get (imap_insert m k v) k = some v := by
  intro m
  induction m with
  | nil => simp [imap_get, imap_insert]
  | cons p t ih =>
    by_cases hp : p.1 = k
    · simp [imap_get, imap_insert, hp]
    · simpa [imap_get, imap_insert, List.find?_cons, hp] using ih

/-- Looking up a different key is unaffected by an insertion. -/
theorem imap_get_insert_of_ne {α : Type} {k k' : Nat} (hk : k' ≠ k) (v : α) :
    ∀ m : List (Nat × α), imap_get (imap_insert m k v) k' = imap_get m k' := by
  intro m
  have hk' : ¬k = k' := Ne.symm hk
  induction m with
  | nil => simp [imap_get, imap_insert, hk']
  | cons p t ih =>
    by_cases hp : p.1 = k
    · have hp' : ¬p.1 = k' := by rw [hp]; exact hk'
      simp [imap_get, imap_insert, List.find?_cons, hp, hp', hk']
    · by_cases hq : p.1 = k'
      · simp [imap_get, imap_insert, List.find?_cons, hp, hq, hk, hk']
      · simpa [imap_get, imap_insert, List.find?_cons, hp, hq, hk'] using ih

/-- Looking up the removed key yields nothing. -/
theorem imap_get_remove_self {α : Type} (k : Nat) (m : List (Nat × α)) :
    imap_get (imap_remove m k) k = none := by
  induction m with
  | nil => rfl
  | cons p t ih =>
    by_cases hp : p.1 = k
    · simp only [imap_remove, imap_get, List.filter_cons] at ih ⊢
      simp [hp, ih]
    · simp only [imap_remove, imap_get, List.filter_cons] at ih ⊢
      simp [hp, ih]

/-- Looking up a different key is unaffected by a removal. -/
theorem imap_get_remove_of_ne {α : Type} {k k' : Nat} (hk : k' ≠ k)
    (m : List (Nat × α)) : imap_get (imap_remove m k) k' = imap_get m k' := by
  have hk' : ¬k = k' := Ne.symm hk
  induction m with
  | nil => rfl
  | cons p t ih =>
    by_cases hp : p.1 = k
    · have hp' : ¬p.1 = k' := by rw [hp]; exact hk'
      simpa [imap_remove, imap_get, List.filter_cons, List.find?_cons, hp, hp', hk'] using ih
    · by_cases hq : p.1 = k'
      · simp [imap_remove, imap_get, List.filter_cons, List.find?_cons, hp, hq, hk, hk']
      · simpa [imap_remove, imap_get, List.filter_cons, List.find?_cons, hp, hq, hk'] using ih

/-- Removing a key just appended at the back equals removing it from the
front part. -/
theorem imap_remove_append_self {α : Type} (k : Nat) (v : α) (m : List (Nat × α)) :
    imap_remove (m ++ [(k, v)]) k = imap_remove m k := by
  simp [imap_remove, List.filter_append]

/-- Removing an absent key is the identity. -/
theorem imap_remove_of_not_mem {α : Type} {k : Nat} {m : List (Nat × α)}
    (h : m.any (fun p => p.1 == k) = false) : imap_remove m k = m := by
  induction m with
  | nil => rfl
  | cons p t ih =>
    simp only [List.any_cons, Bool.or_eq_false_iff] at h
    have hp : ¬p.1 = k := by simpa using h.1
    have ht := ih h.2
    simp only [imap_remove, List.filter_cons] at ht ⊢
    simp [hp, ht]

end CosmicRandr

namespace CosmicRandr

/-! Claim C1: liveness of `current_mode` under head/mode event sequences. -/

/-- C1 counterexample: a well-formed event sequence — announce a head, let it
announce a mode, make that mode current, then deliver a Finished for the
mode — leaves the head with `current_mode = some 2` while mode 2 is no
longer a live entry of its `modes` map.  The claimed invariant
("current_mode, if set, refers to a live entry in modes"; "when a Finished
event removes a mode, any current_mode reference pointing at it is
cleared") is therefore false of the code: the Finished arm of
output_mode.rs only calls `modes.shift_remove` and never touches
`current_mode`. -/
theorem c1_current_mode_dangles_cex :
    (imap_get (runEvents Context.empty
        [Ev.manager_head 1, Ev.head 1 (HeadEvent.mode 2),
         Ev.head 1 (HeadEvent.current_mode 2), Ev.mode 2 ModeEvent.finished]).output_heads 1).map
      (fun h => (h.current_mode, imap_get h.modes 2)) = some (some 2, none) := by
  rfl

/-- C1 amended: dispatching a mode Finished event removes the mode's entry
from the owning head's `modes` map (preserving the order of the remaining
entries) but leaves every head's `current_mode` — and every other head
field — unchanged, so a `current_mode` naming the removed mode dangles
until a later CurrentMode event overwrites it. -/
theorem c1_mode_finished_removes_entry_keeps_current_mode
    (st : Context) (modeId headId : Nat) (head : OutputHead)
    (hd : imap_get st.mode_data modeId = some headId)
    (hh : imap_get st.output_heads headId = some head) :
    imap_get (applyModeEvent st modeId ModeEvent.finished).output_heads headId =
      some { head with modes := imap_remove head.modes modeId } ∧
    (∀ id h', imap_get (applyModeEvent st modeId ModeEvent.finished).output_heads id = some h' →
      ∃ h0, imap_get st.output_heads id = some h0 ∧ h'.current_mode = h0.current_mode) := by
  have heq : applyModeEvent st modeId ModeEvent.finished =
      st.set_head headId { head with modes := imap_remove head.modes modeId } := by
    simp only [applyModeEvent, hd, hh]
    by_cases hany : head.modes.any (fun p => p.1 == modeId)
    · simp [hany]
    · simp only [hany, Bool.false_eq_true, if_false]
      rw [imap_remove_append_self]
  constructor
  · rw [heq, Context.set_head]
    exact imap_get_insert_self headId _ st.output_heads
  · intro id h' hget
    by_cases hid : id = headId
    · subst hid
      rw [heq, Context.set_head] at hget
      rw [imap_get_insert_self] at hget
      refine ⟨head, hh, ?_⟩
      cases hget
      rfl
    · rw [heq, Context.set_head] at hget
      rw [imap_get_insert_of_ne hid] at hget
      exact ⟨h', hget, rfl⟩

/-- C1 amended, witness: the amended theorem evaluated on the concrete
dangling-reference state reached right before the Finished event. -/
theorem c1_mode_finished_removes_entry_keeps_current_mode_witness :
    imap_get (applyModeEvent
        { output_heads := [(1, { OutputHead.new 1 none with current_mode := some 2, modes := [(2, OutputMode.new 2)] })], mode_data := [(2, 1)] }
        2 ModeEvent.finished).output_heads 1 =
      some { OutputHead.new 1 none with current_mode := some 2, modes := ([] : List (Nat × OutputMode)) } :=
  (c1_mode_finished_removes_entry_keeps_current_mode
    { output_heads := [(1, { OutputHead.new 1 none with current_mode := some 2, modes := [(2, OutputMode.new 2)] })], mode_data := [(2, 1)] }
    2 1
    ({ OutputHead.new 1 none with current_mode := some 2, modes := [(2, OutputMode.new 2)] })
    rfl rfl).1

end CosmicRandr

namespace CosmicRandr

/-! Claim C9: the message channel's recv semantics. -/

/-- Helper: draining a closed channel yields exactly the queued messages in
order, followed by the single end-of-stream result. -/
theorem recv_trace_closed (q : List Message) :
    (Channel.mk q true).recv_trace (q.length + 1) =
      q.map RecvResult.msg ++ [RecvResult.closedEnd] := by
  induction q with
  | nil => rfl
  | cons m rest ih =>
    simp only [Channel.recv_trace, Channel.recv_poll, List.length_cons, List.map_cons]
    simpa using ih

/-- C9: a poll of `recv` returns the front queued message whenever the queue
is nonempty — regardless of the closed flag, so also after the sender was
dropped — and reports end-of-stream exactly when the queue is empty and the
channel is closed (otherwise it suspends); consequently, dropping the sender
and polling until completion yields every queued message in order and only
then the end-of-stream result. -/
theorem c9_recv_drains_before_eos (c : Channel) :
    (∀ m rest, c.queue = m :: rest →
      c.recv_poll = ({ c with queue := rest }, RecvResult.msg m)) ∧
    (c.recv_poll.2 = RecvResult.closedEnd ↔ c.queue = [] ∧ c.closed = true) ∧
    (c.drop_sender.recv_trace (c.queue.length + 1) =
      c.queue.map RecvResult.msg ++ [RecvResult.closedEnd]) := by
  refine ⟨?_, ?_, ?_⟩
  · intro m rest hq
    simp [Channel.recv_poll, hq]
  · cases hq : c.queue with
    | nil =>
      by_cases hc : c.closed <;> simp [Channel.recv_poll, hq, hc]
    | cons m rest =>
      simp [Channel.recv_poll, hq]
  · have : c.drop_sender = Channel.mk c.queue true := rfl
    rw [this]
    exact recv_trace_closed c.queue

/-- C9 witness: the theorem evaluated on a concrete channel holding two
messages whose sender was dropped. -/
theorem c9_recv_drains_before_eos_witness :
    (Channel.mk [Message.manager_done, Message.configuration_succeeded] false).drop_sender.recv_trace 3 =
      [RecvResult.msg Message.manager_done, RecvResult.msg Message.configuration_succeeded,
       RecvResult.closedEnd] :=
  (c9_recv_drains_before_eos
    (Channel.mk [Message.manager_done, Message.configuration_succeeded] false)).2.2

end CosmicRandr

namespace CosmicRandr

/-! Unfolding equations for the staging operations, and the possible error
results of `send_mode_to_config_head`. -/

/-- Unfolded form of `Configuration.disable_head`. -/
theorem disable_head_eq (cfg : Configuration) (o : String) :
    cfg.disable_head o =
      (if cfg.configured_heads.any (fun x => x == o) then
        (cfg, some ConfigurationError.OutputAlreadyConfigured)
      else
        match cfg.known_heads.find? (fun head => head.name == o) with
        | none =>
          ({ cfg with configured_heads := cfg.configured_heads ++ [o] },
            some ConfigurationError.UnknownOutput)
        | some head =>
          ({ cfg with
              configured_heads := cfg.configured_heads ++ [o]
              requests := cfg.requests ++ [Request.disable_head head.wlr_head] }, none)) := rfl

/-- Requests created by enabling a head before any head configuration is
applied: the enable itself plus, with the extension manager present, the
extension configuration-head object. -/
def create_enable_reqs (cfg : Configuration) (head : OutputHead) : List Request :=
  [Request.enable_head head.wlr_head] ++
    (if cfg.cosmic_output_manager then [Request.get_configuration_head] else [])

/-- Unfolded form of `Configuration.enable_head`. -/
theorem enable_head_eq (cfg : Configuration) (o : String) (margs : Option HeadConfiguration) :
    cfg.enable_head o margs =
      (if cfg.configured_heads.any (fun x => x == o) then
        (cfg, some ConfigurationError.OutputAlreadyConfigured)
      else
        match cfg.known_heads.find? (fun head => head.name == o) with
        | none =>
          ({ cfg with configured_heads := cfg.configured_heads ++ [o] },
            some ConfigurationError.UnknownOutput)
        | some head =>
          match margs with
          | none =>
            ({ cfg with
                configured_heads := cfg.configured_heads ++ [o]
                requests := cfg.requests ++ create_enable_reqs cfg head }, none)
          | some args =>
            ({ cfg with
                configured_heads := cfg.configured_heads ++ [o]
                requests := (cfg.requests ++ create_enable_reqs cfg head) ++
                  (send_mode_to_config_head head cfg.cosmic_output_manager
                    cfg.adaptive_sync_ext_ok args).1 },
              (send_mode_to_config_head head cfg.cosmic_output_manager
                cfg.adaptive_sync_ext_ok args).2)) := rfl

/-- Requests created by staging a mirror before any head configuration is
applied. -/
def create_mirror_reqs (cfg : Configuration) (head srcHead : OutputHead) : List Request :=
  [Request.mirror_head head.wlr_head srcHead.wlr_head] ++
    (if cfg.cosmic_output_manager then [Request.get_configuration_head] else [])

/-- Unfolded form of `Configuration.mirror_head`. -/
theorem mirror_head_eq (cfg : Configuration) (o src : String)
    (margs : Option HeadConfiguration) :
    cfg.mirror_head o src margs =
      (if !cfg.cosmic_obj then (cfg, some ConfigurationError.NoCosmicExtension)
      else if cfg.configured_heads.any (fun x => x == o) then
        (cfg, some ConfigurationError.OutputAlreadyConfigured)
      else if o == src then (cfg, some ConfigurationError.MirroringItself)
      else if (margs.map (fun m => m.pos.isSome)).getD false then
        (cfg, some ConfigurationError.PositionForMirroredOutput)
      else
        match cfg.known_heads.find? (fun head => head.name == o) with
        | none =>
          ({ cfg with configured_heads := cfg.configured_heads ++ [o] },
            some ConfigurationError.UnknownOutput)
        | some head =>
          match cfg.known_heads.find? (fun h => h.name == src) with
          | none =>
            ({ cfg with configured_heads := cfg.configured_heads ++ [o] },
              some ConfigurationError.UnknownOutput)
          | some srcHead =>
            match margs with
            | none =>
              ({ cfg with
                  configured_heads := cfg.configured_heads ++ [o]
                  requests := cfg.requests ++ create_mirror_reqs cfg head srcHead }, none)
            | some args =>
              ({ cfg with
                  configured_heads := cfg.configured_heads ++ [o]
                  requests := (cfg.requests ++ create_mirror_reqs cfg head srcHead) ++
                    (send_mode_to_config_head head cfg.cosmic_output_manager
                      cfg.adaptive_sync_ext_ok args).1 },
                (send_mode_to_config_head head cfg.cosmic_output_manager
                  cfg.adaptive_sync_ext_ok args).2)) := rfl

/-- The only error results `send_mode_to_config_head` can produce are
`UnsupportedVrrState` and `ModeNotFound`. -/
theorem send_mode_err_shape (head : OutputHead) (hc ext : Bool) (args : HeadConfiguration) :
    (send_mode_to_config_head head hc ext args).2 = none ∨
    (send_mode_to_config_head head hc ext args).2 = some ConfigurationError.ModeNotFound ∨
    (send_mode_to_config_head head hc ext args).2 = some ConfigurationError.UnsupportedVrrState := by
  unfold send_mode_to_config_head
  repeat' split
  all_goals simp

/-- Elimination form of the previous lemma. -/
theorem send_mode_err_elim {head : OutputHead} {hc ext : Bool} {args : HeadConfiguration}
    {e : ConfigurationError}
    (h : (send_mode_to_config_head head hc ext args).2 = some e) :
    e = ConfigurationError.ModeNotFound ∨ e = ConfigurationError.UnsupportedVrrState := by
  rcases send_mode_err_shape head hc ext args with hs | hs | hs <;> rw [hs] at h
  · exact absurd h (by simp)
  · exact Or.inl (by injection h with h1; exact h1.symm)
  · exact Or.inr (by injection h with h1; exact h1.symm)

end CosmicRandr

namespace CosmicRandr

/-! Claim C5: atomicity of staging errors. -/

/-- C5 counterexample: on an empty snapshot, `disable_head` returns
`UnknownOutput` — a `ConfigurationError` — yet the transaction's staged-name
set has changed: the name was pushed before the failed lookup.  This
falsifies the claim that every staging operation returning a
`ConfigurationError` has left the transaction state exactly as before. -/
theorem c5_unknown_output_stages_name_cex :
    (Configuration.disable_head
        { cosmic_obj := false, cosmic_output_manager := false, adaptive_sync_ext_ok := false,
          known_heads := [], configured_heads := [], requests := [] } ("A")).2 =
      some ConfigurationError.UnknownOutput ∧
    (Configuration.disable_head
        { cosmic_obj := false, cosmic_output_manager := false, adaptive_sync_ext_ok := false,
          known_heads := [], configured_heads := [], requests := [] } ("A")).1.configured_heads ≠
      ([] : List String) := by
  decide

/-- Helper: a request log extended by a nonempty block (and possibly more)
differs from the original by a nonempty suffix. -/
theorem exists_nonempty_suffix {a b c : List Request} (hb : b ≠ []) :
    ∃ l, l ≠ [] ∧ (a ++ b) ++ c = a ++ l :=
  ⟨b ++ c, by simp [hb], by rw [List.append_assoc]⟩

/-- C5 amended: a staging operation is atomic only for the validation
errors raised before the name is pushed — `OutputAlreadyConfigured` for all
three operations and, for `mirror_head`, also `NoCosmicExtension`,
`MirroringItself` and `PositionForMirroredOutput`: those leave the
transaction exactly unchanged and send nothing.  An `UnknownOutput` failure
sends no request but leaves the name appended to the staged set; and when
`enable_head` fails while applying a `HeadConfiguration`
(`ModeNotFound`/`UnsupportedVrrState`), the name is staged and the enable
request (with any scale/transform/position sends) has already gone out. -/
theorem c5_staging_error_effects (cfg : Configuration) (o src : String)
    (margs : Option HeadConfiguration) :
    (∀ cfg', cfg.disable_head o = (cfg', some ConfigurationError.OutputAlreadyConfigured) →
      cfg' = cfg) ∧
    (∀ cfg', cfg.enable_head o margs = (cfg', some ConfigurationError.OutputAlreadyConfigured) →
      cfg' = cfg) ∧
    (∀ cfg' e, cfg.mirror_head o src margs = (cfg', some e) →
      (e = ConfigurationError.NoCosmicExtension ∨
        e = ConfigurationError.OutputAlreadyConfigured ∨
        e = ConfigurationError.MirroringItself ∨
        e = ConfigurationError.PositionForMirroredOutput) →
      cfg' = cfg) ∧
    (∀ cfg', cfg.disable_head o = (cfg', some ConfigurationError.UnknownOutput) →
      cfg' = { cfg with configured_heads := cfg.configured_heads ++ [o] }) ∧
    (∀ cfg', cfg.enable_head o margs = (cfg', some ConfigurationError.UnknownOutput) →
      cfg' = { cfg with configured_heads := cfg.configured_heads ++ [o] }) ∧
    (∀ cfg', cfg.mirror_head o src margs = (cfg', some ConfigurationError.UnknownOutput) →
      cfg' = { cfg with configured_heads := cfg.configured_heads ++ [o] }) ∧
    (∀ cfg' e, cfg.enable_head o margs = (cfg', some e) →
      (e = ConfigurationError.ModeNotFound ∨ e = ConfigurationError.UnsupportedVrrState) →
      cfg'.configured_heads = cfg.configured_heads ++ [o] ∧
      ∃ l, l ≠ [] ∧ cfg'.requests = cfg.requests ++ l) := by
  refine ⟨?_, ?_, ?_, ?_, ?_, ?_, ?_⟩
  · intro cfg' h
    rw [disable_head_eq] at h
    split at h
    · injection h with h1 h2
      exact h1.symm ▸ rfl
    · split at h <;> injection h with h1 h2 <;> simp at h2
  · intro cfg' h
    rw [enable_head_eq] at h
    split at h
    · injection h with h1 h2
      exact h1.symm ▸ rfl
    · split at h
      · injection h with h1 h2
        simp at h2
      · split at h
        · injection h with h1 h2
          simp at h2
        · injection h with h1 h2
          rcases send_mode_err_elim h2 with he | he <;> simp at he
  · intro cfg' e h hcases
    rw [mirror_head_eq] at h
    split at h
    · injection h with h1 h2
      exact h1.symm ▸ rfl
    · split at h
      · injection h with h1 h2
        exact h1.symm ▸ rfl
      · split at h
        · injection h with h1 h2
          exact h1.symm ▸ rfl
        · split at h
          · injection h with h1 h2
            exact h1.symm ▸ rfl
          · split at h
            · injection h with h1 h2
              injection h2 with h3
              rcases hcases with hc | hc | hc | hc <;> rw [hc] at h3 <;> simp at h3
            · split at h
              · injection h with h1 h2
                injection h2 with h3
                rcases hcases with hc | hc | hc | hc <;> rw [hc] at h3 <;> simp at h3
              · split at h
                · injection h with h1 h2
                  simp at h2
                · injection h with h1 h2
                  rcases send_mode_err_elim h2 with he | he <;>
                    rcases hcases with hc | hc | hc | hc <;> subst hc <;> simp at he
  · intro cfg' h
    rw [disable_head_eq] at h
    split at h
    · injection h with h1 h2
      simp at h2
    · split at h
      · injection h with h1 h2
        exact h1.symm ▸ rfl
      · injection h with h1 h2
        simp at h2
  · intro cfg' h
    rw [enable_head_eq] at h
    split at h
    · injection h with h1 h2
      simp at h2
    · split at h
      · injection h with h1 h2
        exact h1.symm ▸ rfl
      · split at h
        · injection h with h1 h2
          simp at h2
        · injection h with h1 h2
          rcases send_mode_err_elim h2 with he | he <;> simp at he
  · intro cfg' h
    rw [mirror_head_eq] at h
    split at h
    · injection h with h1 h2
      simp at h2
    · split at h
      · injection h with h1 h2
        simp at h2
      · split at h
        · injection h with h1 h2
          simp at h2
        · split at h
          · injection h with h1 h2
            simp at h2
          · split at h
            · injection h with h1 h2
              exact h1.symm ▸ rfl
            · split at h
              · injection h with h1 h2
                exact h1.symm ▸ rfl
              · split at h
                · injection h with h1 h2
                  simp at h2
                · injection h with h1 h2
                  rcases send_mode_err_elim h2 with he | he <;> simp at he
  · intro cfg' e h hcases
    rw [enable_head_eq] at h
    split at h
    · injection h with h1 h2
      injection h2 with h3
      rcases hcases with hc | hc <;> rw [hc] at h3 <;> simp at h3
    · split at h
      · injection h with h1 h2
        injection h2 with h3
        rcases hcases with hc | hc <;> rw [hc] at h3 <;> simp at h3
      · split at h
        · injection h with h1 h2
          simp at h2
        · injection h with h1 h2
          constructor
          · rw [← h1]
          · rw [← h1]
            refine exists_nonempty_suffix ?_
            simp [create_enable_reqs]

/-- C5 amended, witness: `disable_head` of an unknown name on a concrete
empty-snapshot transaction stages the name while reporting
`UnknownOutput`. -/
theorem c5_staging_error_effects_witness :
    ({ cosmic_obj := false, cosmic_output_manager := false, adaptive_sync_ext_ok := false,
       known_heads := [], configured_heads := ["A"], requests := [] } : Configuration) =
      { cosmic_obj := false, cosmic_output_manager := false, adaptive_sync_ext_ok := false,
        known_heads := [], configured_heads := [] ++ ["A"], requests := [] } :=
  (c5_staging_error_effects
      { cosmic_obj := false, cosmic_output_manager := false, adaptive_sync_ext_ok := false,
        known_heads := [], configured_heads := [], requests := [] } ("A") ("B") none).2.2.2.1
    { cosmic_obj := false, cosmic_output_manager := false, adaptive_sync_ext_ok := false,
      known_heads := [], configured_heads := ["A"], requests := [] }
    (by decide)

end CosmicRandr

namespace CosmicRandr

/-! Claim C4: staging-uniqueness and unknown-name errors. -/

/-- C4 counterexample: with the vendor extension absent, a second staging
call through `mirror_head` for a name staged earlier returns
`NoCosmicExtension`, not `OutputAlreadyConfigured` — the extension check
precedes the double-staging check. -/
theorem c4_precedence_cex :
    (Configuration.mirror_head
        { cosmic_obj := false, cosmic_output_manager := false, adaptive_sync_ext_ok := false,
          known_heads := [], configured_heads := ["A"], requests := [] } ("A") ("B") none).2 =
      some ConfigurationError.NoCosmicExtension ∧
    (Configuration.mirror_head
        { cosmic_obj := false, cosmic_output_manager := false, adaptive_sync_ext_ok := false,
          known_heads := [], configured_heads := ["A"], requests := [] } ("A") ("B") none).2 ≠
      some ConfigurationError.OutputAlreadyConfigured := by
  decide

/-- C4 amended: a name can be staged at most once per transaction —
`disable_head` and `enable_head` on an already-staged name always return
`OutputAlreadyConfigured` and leave the transaction unchanged, and so does
`mirror_head` provided the vendor extension is present (its absence is
reported first as `NoCosmicExtension`).  A name that is neither staged nor
in the snapshot yields `UnknownOutput` from `disable_head` and
`enable_head` unconditionally, and from `mirror_head` provided the
extension is present, the source name differs, and no position is
requested (those checks precede the snapshot lookup). -/
theorem c4_staged_once_unknown_output (cfg : Configuration) (o src : String)
    (margs : Option HeadConfiguration) :
    (cfg.configured_heads.any (fun x => x == o) = true →
      cfg.disable_head o = (cfg, some ConfigurationError.OutputAlreadyConfigured) ∧
      cfg.enable_head o margs = (cfg, some ConfigurationError.OutputAlreadyConfigured) ∧
      (cfg.cosmic_obj = true →
        cfg.mirror_head o src margs = (cfg, some ConfigurationError.OutputAlreadyConfigured))) ∧
    (cfg.configured_heads.any (fun x => x == o) = false →
      (∀ h ∈ cfg.known_heads, ¬h.name = o) →
      (cfg.disable_head o).2 = some ConfigurationError.UnknownOutput ∧
      (cfg.enable_head o margs).2 = some ConfigurationError.UnknownOutput ∧
      (cfg.cosmic_obj = true → ¬o = src →
        (margs.map (fun m => m.pos.isSome)).getD false = false →
        (cfg.mirror_head o src margs).2 = some ConfigurationError.UnknownOutput)) := by
  constructor
  · intro hstaged
    refine ⟨?_, ?_, ?_⟩
    · rw [disable_head_eq]
      simp [hstaged]
    · rw [enable_head_eq]
      simp [hstaged]
    · intro hcosmic
      rw [mirror_head_eq]
      simp [hstaged, hcosmic]
  · intro hunstaged habsent
    have hfind : cfg.known_heads.find? (fun head => head.name == o) = none := by
      rw [List.find?_eq_none]
      intro x hx
      simpa using habsent x hx
    refine ⟨?_, ?_, ?_⟩
    · rw [disable_head_eq]
      simp [hunstaged, hfind]
    · rw [enable_head_eq]
      simp [hunstaged, hfind]
    · intro hcosmic hne hpos
      rw [mirror_head_eq]
      simp [hunstaged, hcosmic, hne, hpos, hfind]

/-- C4 amended, witness: double-staging through `disable_head` on a concrete
transaction with "A" already staged. -/
theorem c4_staged_once_unknown_output_witness :
    Configuration.disable_head
        { cosmic_obj := false, cosmic_output_manager := false, adaptive_sync_ext_ok := false,
          known_heads := [], configured_heads := ["A"], requests := [] } ("A") =
      ({ cosmic_obj := false, cosmic_output_manager := false, adaptive_sync_ext_ok := false,
         known_heads := [], configured_heads := ["A"], requests := [] },
        some ConfigurationError.OutputAlreadyConfigured) :=
  ((c4_staged_once_unknown_output
      { cosmic_obj := false, cosmic_output_manager := false, adaptive_sync_ext_ok := false,
        known_heads := [], configured_heads := ["A"], requests := [] } ("A") ("B") none).1
    (by decide)).1

/-! Claim C6: mirror_head error conditions. -/

/-- C6 counterexample: `mirror_head("A","A", ..)` does not always fail with
`MirroringItself` — when the vendor extension is absent it fails with
`NoCosmicExtension`, because that check runs first. -/
theorem c6_mirroring_itself_cex :
    (Configuration.mirror_head
        { cosmic_obj := false, cosmic_output_manager := false, adaptive_sync_ext_ok := false,
          known_heads := [], configured_heads := [], requests := [] } ("A") ("A") none).2 =
      some ConfigurationError.NoCosmicExtension ∧
    (Configuration.mirror_head
        { cosmic_obj := false, cosmic_output_manager := false, adaptive_sync_ext_ok := false,
          known_heads := [], configured_heads := [], requests := [] } ("A") ("A") none).2 ≠
      some ConfigurationError.MirroringItself := by
  decide

/-- C6 amended: `mirror_head` checks its failure conditions in a fixed
order — `NoCosmicExtension` whenever the extension configuration object is
absent; then, with the extension present and the name not already staged,
`MirroringItself` whenever `name = source_name`; then
`PositionForMirroredOutput` whenever a position was requested.  In each of
these cases the transaction is returned unchanged: no head is staged and no
request is sent. -/
theorem c6_mirror_error_conditions (cfg : Configuration) (o src : String)
    (margs : Option HeadConfiguration) :
    (cfg.cosmic_obj = false →
      cfg.mirror_head o src margs = (cfg, some ConfigurationError.NoCosmicExtension)) ∧
    (cfg.cosmic_obj = true → cfg.configured_heads.any (fun x => x == o) = false → o = src →
      cfg.mirror_head o src margs = (cfg, some ConfigurationError.MirroringItself)) ∧
    (cfg.cosmic_obj = true → cfg.configured_heads.any (fun x => x == o) = false → ¬o = src →
      (margs.map (fun m => m.pos.isSome)).getD false = true →
      cfg.mirror_head o src margs = (cfg, some ConfigurationError.PositionForMirroredOutput)) := by
  refine ⟨?_, ?_, ?_⟩
  · intro hcosmic
    rw [mirror_head_eq]
    simp [hcosmic]
  · intro hcosmic hunstaged hself
    subst hself
    rw [mirror_head_eq]
    simp [hcosmic, hunstaged]
  · intro hcosmic hunstaged hne hpos
    rw [mirror_head_eq]
    simp [hcosmic, hunstaged, hne, hpos]

/-- C6 amended, witness: self-mirroring with the extension present on a
concrete transaction. -/
theorem c6_mirror_error_conditions_witness :
    Configuration.mirror_head
        { cosmic_obj := true, cosmic_output_manager := true, adaptive_sync_ext_ok := true,
          known_heads := [], configured_heads := [], requests := [] } ("A") ("A") none =
      ({ cosmic_obj := true, cosmic_output_manager := true, adaptive_sync_ext_ok := true,
         known_heads := [], configured_heads := [], requests := [] },
        some ConfigurationError.MirroringItself) :=
  (c6_mirror_error_conditions
      { cosmic_obj := true, cosmic_output_manager := true, adaptive_sync_ext_ok := true,
        known_heads := [], configured_heads := [], requests := [] } ("A") ("A") none).2.1
    (by decide) (by decide) (by decide)

end CosmicRandr

namespace CosmicRandr

/-! Claim C2: refresh-rate mode selection. -/

/-- The comparison step returns one of its two arguments. -/
theorem min_step_cases (t : Int) (a x : OutputMode) :
    min_step t a x = x ∨ min_step t a x = a := by
  rw [min_step]
  split
  · exact Or.inl rfl
  · exact Or.inr rfl

/-- The comparison step does not increase the deviation key. -/
theorem min_step_le (t : Int) (a x : OutputMode) :
    ((min_step t a x).refresh - t).natAbs ≤ (a.refresh - t).natAbs ∧
    ((min_step t a x).refresh - t).natAbs ≤ (x.refresh - t).natAbs := by
  rw [min_step]
  split
  · constructor
    · omega
    · exact le_refl _
  · constructor
    · exact le_refl _
    · omega

/-- The fold underlying `min_by_refresh` returns an element of the
accumulator-plus-list. -/
theorem min_fold_mem (t : Int) :
    ∀ (ms : List OutputMode) (a : OutputMode), ms.foldl (min_step t) a ∈ a :: ms := by
  intro ms
  induction ms with
  | nil => intro a; simp
  | cons x rest ih =>
    intro a
    simp only [List.foldl_cons]
    rcases List.mem_cons.mp (ih (min_step t a x)) with h | h
    · rcases min_step_cases t a x with hs | hs
      · have hx := h.trans hs
        rw [hx]
        exact List.mem_cons.mpr (Or.inr (List.mem_cons_self x rest))
      · have ha := h.trans hs
        rw [ha]
        exact List.mem_cons_self a (x :: rest)
    · exact List.mem_cons.mpr (Or.inr (List.mem_cons.mpr (Or.inr h)))

/-- The fold underlying `min_by_refresh` attains the minimal deviation. -/
theorem min_fold_le (t : Int) :
    ∀ (ms : List OutputMode) (a : OutputMode),
      ((ms.foldl (min_step t) a).refresh - t).natAbs ≤ (a.refresh - t).natAbs ∧
      ∀ x ∈ ms, ((ms.foldl (min_step t) a).refresh - t).natAbs ≤ (x.refresh - t).natAbs := by
  intro ms
  induction ms with
  | nil => intro a; simp
  | cons x rest ih =>
    intro a
    simp only [List.foldl_cons]
    rcases ih (min_step t a x) with ⟨h1, h2⟩
    refine ⟨le_trans h1 (min_step_le t a x).1, ?_⟩
    intro y hy
    rcases List.mem_cons.mp hy with h | h
    · rw [h]
      exact le_trans h1 (min_step_le t a x).2
    · exact h2 y h

/-- A successful `min_by_refresh` result is an element of the list. -/
theorem min_by_refresh_mem {t : Int} {l : List OutputMode} {m : OutputMode}
    (h : min_by_refresh t l = some m) : m ∈ l := by
  cases l with
  | nil => simp [min_by_refresh] at h
  | cons a rest =>
    simp only [min_by_refresh] at h
    injection h with h1
    exact h1 ▸ min_fold_mem t rest a

/-- A successful `min_by_refresh` result minimises the deviation. -/
theorem min_by_refresh_le {t : Int} {l : List OutputMode} {m : OutputMode}
    (h : min_by_refresh t l = some m) :
    ∀ x ∈ l, (m.refresh - t).natAbs ≤ (x.refresh - t).natAbs := by
  cases l with
  | nil => simp [min_by_refresh] at h
  | cons a rest =>
    simp only [min_by_refresh] at h
    injection h with h1
    intro x hx
    rcases List.mem_cons.mp hx with hxa | hxr
    · exact h1 ▸ hxa ▸ (min_fold_le t rest a).1
    · exact h1 ▸ (min_fold_le t rest a).2 x hxr

/-- `min_by_refresh` fails exactly on the empty list. -/
theorem min_by_refresh_none {t : Int} {l : List OutputMode} :
    min_by_refresh t l = none ↔ l = [] := by
  cases l <;> simp [min_by_refresh]

/-- A selected mode is a candidate, lies within the tolerance window
(absolute deviation at most 500 millihertz, i.e. strictly within ±501),
and minimises the deviation among in-window candidates. -/
theorem select_refresh_mode_some {head : OutputHead} {args : HeadConfiguration} {r : Int}
    {m : OutputMode} (h : select_refresh_mode head args r = some m) :
    m ∈ mode_iter head args ∧ (m.refresh - r).natAbs ≤ 500 ∧
    ∀ x ∈ mode_iter head args, (x.refresh - r).natAbs ≤ 500 →
      (m.refresh - r).natAbs ≤ (x.refresh - r).natAbs := by
  rw [select_refresh_mode] at h
  cases hfind : (mode_iter head args).find? (fun mode => mode.refresh == r) with
  | some m' =>
    rw [hfind] at h
    injection h with h1
    have hmem := List.mem_of_find?_eq_some hfind
    have hex : m'.refresh = r := by simpa using List.find?_some hfind
    subst h1
    refine ⟨hmem, by rw [hex]; simp, ?_⟩
    intro x hx hxle
    rw [hex]
    simp
  | none =>
    rw [hfind] at h
    have hmemf := min_by_refresh_mem h
    have hmin := min_by_refresh_le h
    rcases List.mem_filter.mp hmemf with ⟨hmem, hcond⟩
    have hb : r - 501 < m.refresh ∧ m.refresh < r + 501 := by
      simpa using hcond
    refine ⟨hmem, by omega, ?_⟩
    intro x hx hxle
    have hxf : x ∈ (mode_iter head args).filter
        (fun mode => decide (r - 501 < mode.refresh) && decide (mode.refresh < r + 501)) := by
      rw [List.mem_filter]
      refine ⟨hx, ?_⟩
      simp only [Bool.and_eq_true, decide_eq_true_eq]
      omega
    exact hmin x hxf

/-- When a candidate matches the requested refresh exactly, selection
returns an exact match. -/
theorem select_refresh_mode_exact {head : OutputHead} {args : HeadConfiguration} {r : Int}
    (h : ∃ m ∈ mode_iter head args, m.refresh = r) :
    ∃ m, select_refresh_mode head args r = some m ∧ m.refresh = r := by
  rcases h with ⟨m, hm, hr⟩
  have hs : ((mode_iter head args).find? (fun mode => mode.refresh == r)).isSome := by
    rw [List.find?_isSome]
    exact ⟨m, hm, by simp [hr]⟩
  rcases Option.isSome_iff_exists.mp hs with ⟨m', hm'⟩
  refine ⟨m', ?_, by simpa using List.find?_some hm'⟩
  rw [select_refresh_mode, hm']

/-- When every candidate deviates by more than 500 millihertz, selection
fails. -/
theorem select_refresh_mode_out_of_range {head : OutputHead} {args : HeadConfiguration} {r : Int}
    (h : ∀ x ∈ mode_iter head args, 500 < (x.refresh - r).natAbs) :
    select_refresh_mode head args r = none := by
  have hfind : (mode_iter head args).find? (fun mode => mode.refresh == r) = none := by
    rw [List.find?_eq_none]
    intro x hx
    have := h x hx
    simp only [beq_iff_eq]
    omega
  have hfilter : (mode_iter head args).filter
      (fun mode => decide (r - 501 < mode.refresh) && decide (mode.refresh < r + 501)) = [] := by
    rw [List.filter_eq_nil_iff]
    intro x hx
    have := h x hx
    simp only [Bool.and_eq_true, decide_eq_true_eq, not_and]
    omega
  rw [select_refresh_mode, hfind, hfilter]
  exact min_by_refresh_none.mpr rfl

end CosmicRandr

namespace CosmicRandr

/-- C2: refresh-rate mode selection in `send_mode_to_config_head`.  With a
requested refresh rate (converted to millihertz by the f32 cast), an exact
match among the candidates of `mode_iter` is selected first; otherwise the
candidate strictly within the ±501 millihertz window (deviation at most
500) with the smallest absolute deviation; the selected mode is sent with
`set_mode` and no error is returned; if no candidate lies in the window the
operation returns `ModeNotFound`.  With no refresh constraint the first
candidate in iteration order is sent, and `ModeNotFound` is returned when
there is no candidate.  (Adaptive sync is left unset to isolate mode
selection, which runs last.) -/
theorem c2_refresh_rate_selection (head : OutputHead) (hc ext : Bool)
    (args : HeadConfiguration) (hvrr : args.adaptive_sync = none) :
    (∀ rq : ℚ, args.refresh = some rq →
      ((∃ m ∈ mode_iter head args, m.refresh = ratTrunc (rq * 1000)) →
        ∃ m, select_refresh_mode head args (ratTrunc (rq * 1000)) = some m ∧
          m.refresh = ratTrunc (rq * 1000)) ∧
      (∀ m, select_refresh_mode head args (ratTrunc (rq * 1000)) = some m →
        m ∈ mode_iter head args ∧
        (m.refresh - ratTrunc (rq * 1000)).natAbs ≤ 500 ∧
        (∀ x ∈ mode_iter head args, (x.refresh - ratTrunc (rq * 1000)).natAbs ≤ 500 →
          (m.refresh - ratTrunc (rq * 1000)).natAbs ≤
            (x.refresh - ratTrunc (rq * 1000)).natAbs) ∧
        (send_mode_to_config_head head hc ext args).2 = none ∧
        ∃ pre, (send_mode_to_config_head head hc ext args).1 =
          pre ++ [Request.set_mode m.wlr_mode]) ∧
      ((∀ x ∈ mode_iter head args, 500 < (x.refresh - ratTrunc (rq * 1000)).natAbs) →
        (send_mode_to_config_head head hc ext args).2 =
          some ConfigurationError.ModeNotFound)) ∧
    (args.refresh = none →
      (∀ m, (mode_iter head args).head? = some m →
        (send_mode_to_config_head head hc ext args).2 = none ∧
        ∃ pre, (send_mode_to_config_head head hc ext args).1 =
          pre ++ [Request.set_mode m.wlr_mode]) ∧
      (mode_iter head args = [] →
        (send_mode_to_config_head head hc ext args).2 =
          some ConfigurationError.ModeNotFound)) := by
  constructor
  · intro rq hr
    refine ⟨fun h => select_refresh_mode_exact h, ?_, ?_⟩
    · intro m hsel
      rcases select_refresh_mode_some hsel with ⟨hmem, hdev, hminl⟩
      refine ⟨hmem, hdev, hminl, ?_, ?_⟩
      · simp only [send_mode_to_config_head, hvrr, hr, hsel]
      · exact ⟨_, by simp only [send_mode_to_config_head, hvrr, hr, hsel]; rfl⟩
    · intro hfar
      have hsel := select_refresh_mode_out_of_range hfar
      simp only [send_mode_to_config_head, hvrr, hr, hsel]
  · intro hnone
    constructor
    · intro m hm
      constructor
      · simp only [send_mode_to_config_head, hvrr, hnone, hm]
      · exact ⟨_, by simp only [send_mode_to_config_head, hvrr, hnone, hm]; rfl⟩
    · intro hempty
      have hh : (mode_iter head args).head? = none := by rw [hempty]; rfl
      simp only [send_mode_to_config_head, hvrr, hnone, hh]

/-- C2 witness: the spec's own test vector — modes at 59940, 60000 and
60024 millihertz, request 60.0 Hz — selects the exact 60000 match and sends
it, returning no error. -/
theorem c2_refresh_rate_selection_witness :
    (send_mode_to_config_head
        { OutputHead.new 1 none with
            name := "A"
            modes :=
              [(10, { width := 1920, height := 1080, refresh := 59940, preferred := false,
                      wlr_mode := 10 }),
               (11, { width := 1920, height := 1080, refresh := 60000, preferred := false,
                      wlr_mode := 11 }),
               (12, { width := 1920, height := 1080, refresh := 60024, preferred := false,
                      wlr_mode := 12 })] }
        false false
        { size := some (1920, 1080), refresh := some 60 }).2 = none :=
  (((c2_refresh_rate_selection
      { OutputHead.new 1 none with
          name := "A"
          modes :=
            [(10, { width := 1920, height := 1080, refresh := 59940, preferred := false,
                    wlr_mode := 10 }),
             (11, { width := 1920, height := 1080, refresh := 60000, preferred := false,
                    wlr_mode := 11 }),
             (12, { width := 1920, height := 1080, refresh := 60024, preferred := false,
                    wlr_mode := 12 })] }
      false false
      { size := some (1920, 1080), refresh := some 60 } rfl).1 60 rfl).2.1
    { width := 1920, height := 1080, refresh := 60000, preferred := false, wlr_mode := 11 }
    (by rw [show ((60 : ℚ) * 1000) = (60000 : ℚ) by norm_num]; decide)).2.2.2.1

end CosmicRandr

namespace CosmicRandr

/-! Claims C3 and C10: the auto-staging pass of finalization. -/

/-- The request the auto-staging pass owes a head, given the snapshot used
to resolve names: the staged head handle is the first snapshot head whose
name matches (the protocol does not guarantee unique names, so resolution
is first-match); disable when disabled, mirror when enabled with a
mirroring source, enable otherwise.  `none` means a lookup fails. -/
def request_for (K : List OutputHead) (h : OutputHead) : Option Request :=
  match K.find? (fun k => k.name == h.name) with
  | none => none
  | some k =>
    if h.enabled then
      match h.mirroring with
      | some src =>
        (K.find? (fun k2 => k2.name == src)).map
          (fun k2 => Request.mirror_head k.wlr_head k2.wlr_head)
      | none => some (Request.enable_head k.wlr_head)
    else some (Request.disable_head k.wlr_head)

/-- Evolution of a transaction by staging operations: the snapshot and the
capability flags are untouched, the staged-name list and the request log
only grow at the back. -/
def cfg_extends (cfg cfg' : Configuration) : Prop :=
  cfg'.known_heads = cfg.known_heads ∧
  cfg'.cosmic_obj = cfg.cosmic_obj ∧
  cfg'.cosmic_output_manager = cfg.cosmic_output_manager ∧
  cfg'.adaptive_sync_ext_ok = cfg.adaptive_sync_ext_ok ∧
  (∃ cs, cfg'.configured_heads = cfg.configured_heads ++ cs) ∧
  (∃ rs, cfg'.requests = cfg.requests ++ rs)

/-- Reflexivity of `cfg_extends`. -/
theorem cfg_extends_refl (cfg : Configuration) : cfg_extends cfg cfg :=
  ⟨rfl, rfl, rfl, rfl, ⟨[], by simp⟩, ⟨[], by simp⟩⟩

/-- Transitivity of `cfg_extends`. -/
theorem cfg_extends_trans {a b c : Configuration}
    (h1 : cfg_extends a b) (h2 : cfg_extends b c) : cfg_extends a c := by
  obtain ⟨k1, o1, m1, e1, ⟨cs1, hc1⟩, ⟨rs1, hr1⟩⟩ := h1
  obtain ⟨k2, o2, m2, e2, ⟨cs2, hc2⟩, ⟨rs2, hr2⟩⟩ := h2
  refine ⟨k2.trans k1, o2.trans o1, m2.trans m1, e2.trans e1, ⟨cs1 ++ cs2, ?_⟩,
    ⟨rs1 ++ rs2, ?_⟩⟩
  · rw [hc2, hc1, List.append_assoc]
  · rw [hr2, hr1, List.append_assoc]

/-- Staged names survive later staging operations. -/
theorem cfg_extends_mem_configured {cfg cfg' : Configuration} (h : cfg_extends cfg cfg')
    {n : String} (hn : n ∈ cfg.configured_heads) : n ∈ cfg'.configured_heads := by
  obtain ⟨-, -, -, -, ⟨cs, hc⟩, -⟩ := h
  rw [hc]
  exact List.mem_append_left cs hn

/-- Sent requests survive later staging operations. -/
theorem cfg_extends_mem_requests {cfg cfg' : Configuration} (h : cfg_extends cfg cfg')
    {r : Request} (hr : r ∈ cfg.requests) : r ∈ cfg'.requests := by
  obtain ⟨-, -, -, -, -, ⟨rs, hq⟩⟩ := h
  rw [hq]
  exact List.mem_append_left rs hr

/-- `disable_head` only extends the transaction. -/
theorem disable_head_cfg_extends (cfg : Configuration) (o : String) :
    cfg_extends cfg (cfg.disable_head o).1 := by
  rw [disable_head_eq]
  split
  · exact cfg_extends_refl cfg
  · split
    · exact ⟨rfl, rfl, rfl, rfl, ⟨[o], rfl⟩, ⟨[], by simp⟩⟩
    · exact ⟨rfl, rfl, rfl, rfl, ⟨[o], rfl⟩, ⟨_, rfl⟩⟩

/-- `enable_head` only extends the transaction. -/
theorem enable_head_cfg_extends (cfg : Configuration) (o : String)
    (margs : Option HeadConfiguration) :
    cfg_extends cfg (cfg.enable_head o margs).1 := by
  rw [enable_head_eq]
  split
  · exact cfg_extends_refl cfg
  · split
    · exact ⟨rfl, rfl, rfl, rfl, ⟨[o], rfl⟩, ⟨[], by simp⟩⟩
    · split
      · exact ⟨rfl, rfl, rfl, rfl, ⟨[o], rfl⟩, ⟨_, rfl⟩⟩
      · exact ⟨rfl, rfl, rfl, rfl, ⟨[o], rfl⟩, ⟨_, List.append_assoc _ _ _⟩⟩

/-- `mirror_head` only extends the transaction. -/
theorem mirror_head_cfg_extends (cfg : Configuration) (o src : String)
    (margs : Option HeadConfiguration) :
    cfg_extends cfg (cfg.mirror_head o src margs).1 := by
  rw [mirror_head_eq]
  split
  · exact cfg_extends_refl cfg
  · split
    · exact cfg_extends_refl cfg
    · split
      · exact cfg_extends_refl cfg
      · split
        · exact cfg_extends_refl cfg
        · split
          · exact ⟨rfl, rfl, rfl, rfl, ⟨[o], rfl⟩, ⟨[], by simp⟩⟩
          · split
            · exact ⟨rfl, rfl, rfl, rfl, ⟨[o], rfl⟩, ⟨[], by simp⟩⟩
            · split
              · exact ⟨rfl, rfl, rfl, rfl, ⟨[o], rfl⟩, ⟨_, rfl⟩⟩
              · exact ⟨rfl, rfl, rfl, rfl, ⟨[o], rfl⟩, ⟨_, List.append_assoc _ _ _⟩⟩

end CosmicRandr

namespace CosmicRandr

/-- Shape of a successful `disable_head`. -/
theorem disable_head_success {cfg cfg' : Configuration} {o : String}
    (h : cfg.disable_head o = (cfg', none)) :
    cfg.configured_heads.any (fun x => x == o) = false ∧
    ∃ head, cfg.known_heads.find? (fun k => k.name == o) = some head ∧
      cfg' = { cfg with
        configured_heads := cfg.configured_heads ++ [o]
        requests := cfg.requests ++ [Request.disable_head head.wlr_head] } := by
  rw [disable_head_eq] at h
  split at h
  · injection h with h1 h2
    simp at h2
  · split at h
    · injection h with h1 h2
      simp at h2
    · rename_i hst mh head hfind
      injection h with h1 h2
      exact ⟨Bool.not_eq_true _ ▸ (by simpa using hst), head, hfind, h1.symm⟩

/-- Shape of a successful `enable_head` with no head configuration. -/
theorem enable_head_none_success {cfg cfg' : Configuration} {o : String}
    (h : cfg.enable_head o none = (cfg', none)) :
    cfg.configured_heads.any (fun x => x == o) = false ∧
    ∃ head, cfg.known_heads.find? (fun k => k.name == o) = some head ∧
      cfg' = { cfg with
        configured_heads := cfg.configured_heads ++ [o]
        requests := cfg.requests ++ create_enable_reqs cfg head } := by
  rw [enable_head_eq] at h
  split at h
  · injection h with h1 h2
    simp at h2
  · split at h
    · injection h with h1 h2
      simp at h2
    · rename_i hst mh head hfind
      split at h
      · injection h with h1 h2
        exact ⟨Bool.not_eq_true _ ▸ (by simpa using hst), head, hfind, h1.symm⟩
      · simp at *

/-- Shape of a successful `mirror_head` with no head configuration. -/
theorem mirror_head_none_success {cfg cfg' : Configuration} {o src : String}
    (h : cfg.mirror_head o src none = (cfg', none)) :
    cfg.cosmic_obj = true ∧
    cfg.configured_heads.any (fun x => x == o) = false ∧
    (o == src) = false ∧
    ∃ head srcHead,
      cfg.known_heads.find? (fun k => k.name == o) = some head ∧
      cfg.known_heads.find? (fun k => k.name == src) = some srcHead ∧
      cfg' = { cfg with
        configured_heads := cfg.configured_heads ++ [o]
        requests := cfg.requests ++ create_mirror_reqs cfg head srcHead } := by
  rw [mirror_head_eq] at h
  split at h
  · injection h with h1 h2
    simp at h2
  · split at h
    · injection h with h1 h2
      simp at h2
    · split at h
      · injection h with h1 h2
        simp at h2
      · split at h
        · injection h with h1 h2
          simp at h2
        · split at h
          · injection h with h1 h2
            simp at h2
          · split at h
            · injection h with h1 h2
              simp at h2
            · rename_i hnc hst hne hpos hOpt head hfind srcOpt srcHead hfind2
              split at h
              · injection h with h1 h2
                refine ⟨by simpa using hnc, ?_, by simpa using hne, head, srcHead,
                  hfind, hfind2, h1.symm⟩
                exact Bool.eq_false_iff.mpr hst
              · simp at *

end CosmicRandr

namespace CosmicRandr

/-- `disable_head` succeeds on an unstaged name found in the snapshot. -/
theorem disable_head_ok {cfg : Configuration} {o : String} {head : OutputHead}
    (hst : cfg.configured_heads.any (fun x => x == o) = false)
    (hfind : cfg.known_heads.find? (fun k => k.name == o) = some head) :
    cfg.disable_head o =
      ({ cfg with
          configured_heads := cfg.configured_heads ++ [o]
          requests := cfg.requests ++ [Request.disable_head head.wlr_head] }, none) := by
  rw [disable_head_eq, hst]
  simp only [Bool.false_eq_true, if_false]
  rw [hfind]

/-- `enable_head` with no head configuration succeeds on an unstaged name
found in the snapshot. -/
theorem enable_head_ok {cfg : Configuration} {o : String} {head : OutputHead}
    (hst : cfg.configured_heads.any (fun x => x == o) = false)
    (hfind : cfg.known_heads.find? (fun k => k.name == o) = some head) :
    cfg.enable_head o none =
      ({ cfg with
          configured_heads := cfg.configured_heads ++ [o]
          requests := cfg.requests ++ create_enable_reqs cfg head }, none) := by
  rw [enable_head_eq, hst]
  simp only [Bool.false_eq_true, if_false]
  rw [hfind]

/-- `mirror_head` with no head configuration succeeds when the extension is
present, the name is unstaged and distinct from the source, and both
resolve in the snapshot. -/
theorem mirror_head_ok {cfg : Configuration} {o src : String} {head srcHead : OutputHead}
    (hcosmic : cfg.cosmic_obj = true)
    (hst : cfg.configured_heads.any (fun x => x == o) = false)
    (hne : (o == src) = false)
    (hfind : cfg.known_heads.find? (fun k => k.name == o) = some head)
    (hfind2 : cfg.known_heads.find? (fun k => k.name == src) = some srcHead) :
    cfg.mirror_head o src none =
      ({ cfg with
          configured_heads := cfg.configured_heads ++ [o]
          requests := cfg.requests ++ create_mirror_reqs cfg head srcHead }, none) := by
  rw [mirror_head_eq, hcosmic, hst, hne]
  simp only [Bool.not_true, Bool.false_eq_true, if_false]
  rw [hfind, hfind2]
  rfl

/-- `mirror_head` always fails when the extension is missing or the source
name resolves to no snapshot head. -/
theorem mirror_head_fails {cfg : Configuration} (o src : String)
    (margs : Option HeadConfiguration)
    (h : cfg.cosmic_obj = false ∨ ∀ k ∈ cfg.known_heads, ¬k.name = src) :
    ∃ e, (cfg.mirror_head o src margs).2 = some e := by
  rw [mirror_head_eq]
  rcases h with hc | hsrc
  · rw [hc]
    exact ⟨ConfigurationError.NoCosmicExtension, rfl⟩
  · split
    · exact ⟨ConfigurationError.NoCosmicExtension, rfl⟩
    · split
      · exact ⟨ConfigurationError.OutputAlreadyConfigured, rfl⟩
      · split
        · exact ⟨ConfigurationError.MirroringItself, rfl⟩
        · split
          · exact ⟨ConfigurationError.PositionForMirroredOutput, rfl⟩
          · have hfind2 : cfg.known_heads.find? (fun k => k.name == src) = none := by
              rw [List.find?_eq_none]
              intro x hx
              simpa using hsrc x hx
            split
            · exact ⟨ConfigurationError.UnknownOutput, rfl⟩
            · rw [hfind2]
              exact ⟨ConfigurationError.UnknownOutput, rfl⟩

end CosmicRandr

namespace CosmicRandr

/-- A staging-loop step only extends the transaction. -/
theorem stage_step_cfg_extends (cfg : Configuration) (x : OutputHead) :
    cfg_extends cfg (stage_step cfg x).1 := by
  rw [stage_step]
  split
  · split
    · exact mirror_head_cfg_extends cfg x.name _ none
    · exact enable_head_cfg_extends cfg x.name none
  · exact disable_head_cfg_extends cfg x.name

/-- Shape of a successful staging-loop step: the head's name was not yet
staged, it is now, and the request owed for the head's last-known state was
sent. -/
theorem stage_step_success {cfg cfg' : Configuration} {x : OutputHead}
    (h : stage_step cfg x = (cfg', none)) :
    cfg.configured_heads.any (fun s => s == x.name) = false ∧
    cfg'.configured_heads = cfg.configured_heads ++ [x.name] ∧
    ∃ r, request_for cfg.known_heads x = some r ∧ r ∈ cfg'.requests := by
  rw [stage_step] at h
  split at h
  · rename_i hen
    split at h
    · rename_i src hmir
      obtain ⟨hc, hst, hne, head, srcHead, hfind, hfind2, hcfg⟩ := mirror_head_none_success h
      subst hcfg
      refine ⟨hst, rfl, Request.mirror_head head.wlr_head srcHead.wlr_head, ?_, ?_⟩
      · rw [request_for, hfind, hen]
        simp only [if_true]
        rw [hmir]
        simp [hfind2]
      · simp [create_mirror_reqs]
    · rename_i hmir
      obtain ⟨hst, head, hfind, hcfg⟩ := enable_head_none_success h
      subst hcfg
      refine ⟨hst, rfl, Request.enable_head head.wlr_head, ?_, ?_⟩
      · rw [request_for, hfind, hen]
        simp only [if_true]
        rw [hmir]
      · simp [create_enable_reqs]
  · rename_i hen
    obtain ⟨hst, head, hfind, hcfg⟩ := disable_head_success h
    subst hcfg
    refine ⟨hst, rfl, Request.disable_head head.wlr_head, ?_, ?_⟩
    · rw [request_for, hfind]
      simp [hen]
    · simp

/-- A staging-loop step succeeds when the head's name is unstaged, the head
is in the snapshot, and any mirroring is well-formed: extension present,
source distinct from the head's own name, source resolvable. -/
theorem stage_step_ok {cfg : Configuration} {x : OutputHead}
    (hst : cfg.configured_heads.any (fun s => s == x.name) = false)
    (hmem : x ∈ cfg.known_heads)
    (hmirror : x.enabled = true → ∀ src, x.mirroring = some src →
      cfg.cosmic_obj = true ∧ ¬src = x.name ∧ ∃ k ∈ cfg.known_heads, k.name = src) :
    (stage_step cfg x).2 = none := by
  have hfound : ∃ head, cfg.known_heads.find? (fun k => k.name == x.name) = some head := by
    have hs : (cfg.known_heads.find? (fun k => k.name == x.name)).isSome := by
      rw [List.find?_isSome]
      exact ⟨x, hmem, by simp⟩
    exact Option.isSome_iff_exists.mp hs
  obtain ⟨head, hfind⟩ := hfound
  rw [stage_step]
  split
  · rename_i hen
    split
    · rename_i src hmir
      obtain ⟨hc, hne, k, hk, hkname⟩ := hmirror hen src hmir
      have hfound2 : ∃ srcHead, cfg.known_heads.find? (fun j => j.name == src) = some srcHead := by
        have hs : (cfg.known_heads.find? (fun j => j.name == src)).isSome := by
          rw [List.find?_isSome]
          exact ⟨k, hk, by simp [hkname]⟩
        exact Option.isSome_iff_exists.mp hs
      obtain ⟨srcHead, hfind2⟩ := hfound2
      have hneq : (x.name == src) = false := by
        simp only [beq_eq_false_iff_ne, ne_eq]
        intro hcontra
        exact hne hcontra.symm
      rw [mirror_head_ok hc hst hneq hfind hfind2]
    · rw [enable_head_ok hst hfind]
  · rw [disable_head_ok hst hfind]

/-- The auto-staging pass only extends the transaction. -/
theorem configure_go_cfg_extends :
    ∀ (l : List OutputHead) (cfg cfg' : Configuration) (configured : List String),
      configure_go cfg configured l = some cfg' → cfg_extends cfg cfg' := by
  intro l
  induction l with
  | nil =>
    intro cfg cfg' configured h
    simp only [configure_go] at h
    injection h with h1
    exact h1 ▸ cfg_extends_refl cfg
  | cons x rest ih =>
    intro cfg cfg' configured h
    simp only [configure_go] at h
    split at h
    · exact ih cfg cfg' configured h
    · split at h
      · exact absurd h (by simp)
      · exact cfg_extends_trans (stage_step_cfg_extends cfg x)
          (ih (stage_step cfg x).1 cfg' configured h)

/-- After a successful auto-staging pass, a head processed by the pass has
a name that was not yet staged when the pass entered. -/
theorem configure_go_not_mem :
    ∀ (l : List OutputHead) (cfg cfg' : Configuration) (configured : List String),
      configure_go cfg configured l = some cfg' →
      ∀ h ∈ l, configured.contains h.name = false → h.name ∉ cfg.configured_heads := by
  intro l
  induction l with
  | nil =>
    intro cfg cfg' configured hgo h hh
    simp at hh
  | cons x rest ih =>
    intro cfg cfg' configured hgo h hh hc
    simp only [configure_go] at hgo
    split at hgo
    · rename_i hskip
      rcases List.mem_cons.mp hh with he | he
      · subst he
        rw [hskip] at hc
        simp at hc
      · exact ih cfg cfg' configured hgo h he hc
    · split at hgo
      · exact absurd hgo (by simp)
      · rename_i hnr e hstep
        rcases List.mem_cons.mp hh with he | he
        · subst he
          have hpair : stage_step cfg h = ((stage_step cfg h).1, none) := by
            rw [← hstep]
          obtain ⟨hst, -, -⟩ := stage_step_success hpair
          intro hmem
          rw [List.any_eq_false] at hst
          exact absurd (by simp : (h.name == h.name) = true) (by simpa using hst h.name hmem)
        · intro hmem
          have hmem' : h.name ∈ (stage_step cfg x).1.configured_heads :=
            cfg_extends_mem_configured (stage_step_cfg_extends cfg x) hmem
          exact absurd hmem' (ih (stage_step cfg x).1 cfg' configured hgo h he hc)

end CosmicRandr

namespace CosmicRandr

/-- After a successful auto-staging pass, every processed head is staged
and its owed request was sent. -/
theorem configure_go_covers :
    ∀ (l : List OutputHead) (cfg cfg' : Configuration) (configured : List String),
      configure_go cfg configured l = some cfg' →
      ∀ h ∈ l, configured.contains h.name = false →
        h.name ∈ cfg'.configured_heads ∧
        ∃ r, request_for cfg.known_heads h = some r ∧ r ∈ cfg'.requests := by
  intro l
  induction l with
  | nil =>
    intro cfg cfg' configured hgo h hh
    simp at hh
  | cons x rest ih =>
    intro cfg cfg' configured hgo h hh hc
    simp only [configure_go] at hgo
    split at hgo
    · rename_i hskip
      rcases List.mem_cons.mp hh with he | he
      · subst he
        rw [hskip] at hc
        simp at hc
      · exact ih cfg cfg' configured hgo h he hc
    · split at hgo
      · exact absurd hgo (by simp)
      · rename_i hnr e hstep
        have hext := configure_go_cfg_extends rest (stage_step cfg x).1 cfg' configured hgo
        rcases List.mem_cons.mp hh with he | he
        · subst he
          have hpair : stage_step cfg h = ((stage_step cfg h).1, none) := by
            rw [← hstep]
          obtain ⟨-, hconf, r, hreq, hr⟩ := stage_step_success hpair
          refine ⟨?_, r, hreq, cfg_extends_mem_requests hext hr⟩
          apply cfg_extends_mem_configured hext
          rw [hconf]
          simp
        · have hknown : (stage_step cfg x).1.known_heads = cfg.known_heads :=
            (stage_step_cfg_extends cfg x).1
          have := ih (stage_step cfg x).1 cfg' configured hgo h he hc
          rw [hknown] at this
          exact this

/-- The auto-staging pass succeeds when snapshot names are pairwise
distinct among the heads to process, names already staged do not name any
processed head, and every enabled unstaged mirroring head has the
extension available and a resolvable source different from its own name. -/
theorem configure_go_ok :
    ∀ (l : List OutputHead) (cfg : Configuration) (configured : List String),
      (∀ h ∈ l, h ∈ cfg.known_heads) →
      List.Pairwise (fun a b => ¬a.name = b.name) l →
      (∀ n ∈ cfg.configured_heads, configured.contains n = true ∨ ∀ h ∈ l, ¬h.name = n) →
      (∀ h ∈ l, configured.contains h.name = false → h.enabled = true →
        ∀ src, h.mirroring = some src →
        cfg.cosmic_obj = true ∧ ¬src = h.name ∧ ∃ k ∈ cfg.known_heads, k.name = src) →
      (configure_go cfg configured l).isSome = true := by
  intro l
  induction l with
  | nil =>
    intro cfg configured hmem hpair hstaged hmirror
    simp [configure_go]
  | cons x rest ih =>
    intro cfg configured hmem hpair hstaged hmirror
    simp only [configure_go]
    split
    · exact ih cfg configured (fun h hh => hmem h (List.mem_cons_of_mem x hh))
        (List.Pairwise.sublist (List.sublist_cons_self x rest) hpair)
        (fun n hn => (hstaged n hn).imp id (fun hall h hh => hall h (List.mem_cons_of_mem x hh)))
        (fun h hh => hmirror h (List.mem_cons_of_mem x hh))
    · rename_i hskip
      have hskip' : configured.contains x.name = false := Bool.eq_false_iff.mpr hskip
      have hst : cfg.configured_heads.any (fun s => s == x.name) = false := by
        rw [List.any_eq_false]
        intro n hn
        simp only [beq_iff_eq]
        rcases hstaged n hn with hcon | hall
        · intro he
          rw [he] at hcon
          rw [hcon] at hskip'
          exact absurd hskip' (by simp)
        · intro he
          exact hall x (List.mem_cons_self x rest) he.symm
      have hok := stage_step_ok hst (hmem x (List.mem_cons_self x rest))
        (fun hen src hmir => hmirror x (List.mem_cons_self x rest) hskip' hen src hmir)
      rw [hok]
      have hpairx := hpair
      rw [List.pairwise_cons] at hpairx
      have hpairsucc : stage_step cfg x = ((stage_step cfg x).1, none) := by
        rw [← hok]
      obtain ⟨-, hconf, -⟩ := stage_step_success hpairsucc
      have hext := stage_step_cfg_extends cfg x
      apply ih (stage_step cfg x).1 configured
      · intro h hh
        rw [hext.1]
        exact hmem h (List.mem_cons_of_mem x hh)
      · exact hpairx.2
      · intro n hn
        rw [hconf] at hn
        rcases List.mem_append.mp hn with hold | hnew
        · exact (hstaged n hold).imp id (fun hall h hh => hall h (List.mem_cons_of_mem x hh))
        · right
          intro h hh he
          have hx : n = x.name := by simpa using hnew
          exact hpairx.1 h hh (he.trans hx).symm
      · intro h hh hc hen src hmir
        have := hmirror h (List.mem_cons_of_mem x hh) hc hen src hmir
        rw [hext.2.1, hext.1]
        exact this

end CosmicRandr

namespace CosmicRandr

/-- The auto-staging pass panics (returns `none`) when two heads with the
same unstaged name occur in the list: the earlier occurrence stages the
name while the clone-based filter still lets the later occurrence through,
which then fails with `OutputAlreadyConfigured` and is unwrapped. -/
theorem configure_go_dup :
    ∀ (l : List OutputHead) (cfg : Configuration) (configured : List String)
      (h1 h2 : OutputHead),
      List.Sublist [h1, h2] l → h1.name = h2.name →
      configured.contains h1.name = false →
      configure_go cfg configured l = none := by
  intro l
  induction l with
  | nil =>
    intro cfg configured h1 h2 hsub
    cases hsub
  | cons x rest ih =>
    intro cfg configured h1 h2 hsub hname hcon
    cases hsub with
    | cons _ hsub' =>
      simp only [configure_go]
      split
      · exact ih cfg configured h1 h2 hsub' hname hcon
      · split
        · rfl
        · exact ih (stage_step cfg x).1 configured h1 h2 hsub' hname hcon
    | cons₂ =>
      rename_i hsub'
      simp only [configure_go]
      have hnc : ¬configured.contains x.name = true := by
        rw [hcon]
        simp
      rw [if_neg hnc]
      split
      · rfl
      · rename_i e hstep
        have hpair : stage_step cfg x = ((stage_step cfg x).1, none) := by
          rw [← hstep]
        obtain ⟨-, hconf, -⟩ := stage_step_success hpair
        cases hres : configure_go (stage_step cfg x).1 configured rest with
        | none => rfl
        | some cfg' =>
          have hmem2 : h2 ∈ rest := hsub'.subset (List.mem_cons_self h2 [])
          have hcon2 : configured.contains h2.name = false := by
            rw [← hname]
            exact hcon
          have hnot := configure_go_not_mem rest (stage_step cfg x).1 cfg' configured
            hres h2 hmem2 hcon2
          exfalso
          apply hnot
          rw [← hname, hconf]
          simp

/-- The auto-staging pass panics when some unstaged head is enabled and
mirroring while the extension is missing or its source resolves to no
snapshot head: `mirror_head` then fails unconditionally and is unwrapped. -/
theorem configure_go_mirror_fail :
    ∀ (l : List OutputHead) (cfg : Configuration) (configured : List String)
      (h : OutputHead) (src : String),
      h ∈ l → configured.contains h.name = false →
      h.enabled = true → h.mirroring = some src →
      (cfg.cosmic_obj = false ∨ ∀ k ∈ cfg.known_heads, ¬k.name = src) →
      configure_go cfg configured l = none := by
  intro l
  induction l with
  | nil =>
    intro cfg configured h src hmem
    simp at hmem
  | cons x rest ih =>
    intro cfg configured h src hmem hcon hen hmir hbad
    rcases List.mem_cons.mp hmem with he | he
    · subst he
      simp only [configure_go]
      rw [if_neg (by rw [hcon]; simp)]
      obtain ⟨e, hfail⟩ := mirror_head_fails h.name src none hbad
      have hstep : (stage_step cfg h).2 = some e := by
        rw [stage_step, if_pos hen, hmir]
        exact hfail
      rw [hstep]
    · simp only [configure_go]
      split
      · exact ih cfg configured h src he hcon hen hmir hbad
      · split
        · rfl
        · rename_i hnr e hstep
          have hext := stage_step_cfg_extends cfg x
          apply ih (stage_step cfg x).1 configured h src he hcon hen hmir
          rw [hext.2.1, hext.1]
          exact hbad

end CosmicRandr

namespace CosmicRandr

/-- Coverage property of the auto-staging pass, stated on
`configure_remaining_heads`. -/
theorem configure_remaining_heads_covers {cfg c : Configuration}
    (h : cfg.configure_remaining_heads = some c) :
    (∀ hd ∈ cfg.known_heads, hd.name ∈ c.configured_heads) ∧
    (∀ hd ∈ cfg.known_heads, hd.name ∉ cfg.configured_heads →
      ∃ r, request_for cfg.known_heads hd = some r ∧ r ∈ c.requests) := by
  rw [Configuration.configure_remaining_heads] at h
  constructor
  · intro hd hmem
    by_cases hstaged : hd.name ∈ cfg.configured_heads
    · exact cfg_extends_mem_configured
        (configure_go_cfg_extends cfg.known_heads cfg c cfg.configured_heads h) hstaged
    · have hcon : cfg.configured_heads.contains hd.name = false := by
        simpa using hstaged
      exact (configure_go_covers cfg.known_heads cfg c cfg.configured_heads h hd hmem hcon).1
  · intro hd hmem hstaged
    have hcon : cfg.configured_heads.contains hd.name = false := by
      simpa using hstaged
    exact (configure_go_covers cfg.known_heads cfg c cfg.configured_heads h hd hmem hcon).2

/-- C3: a finalized transaction (via `test` or `apply`) covers every known
head.  Each snapshot head's name ends up staged; each head that was not
explicitly staged has the request reproducing its last-known state —
disable when disabled, mirror of its source when enabled and mirroring,
enable otherwise — in the final request set, followed by the test/apply
request. -/
theorem c3_finalize_stages_all_heads (cfg : Configuration) :
    (∀ cfg', cfg.test = some cfg' →
      (∀ hd ∈ cfg.known_heads, hd.name ∈ cfg'.configured_heads) ∧
      (∀ hd ∈ cfg.known_heads, hd.name ∉ cfg.configured_heads →
        ∃ r, request_for cfg.known_heads hd = some r ∧ r ∈ cfg'.requests) ∧
      Request.test ∈ cfg'.requests) ∧
    (∀ cfg', cfg.apply = some cfg' →
      (∀ hd ∈ cfg.known_heads, hd.name ∈ cfg'.configured_heads) ∧
      (∀ hd ∈ cfg.known_heads, hd.name ∉ cfg.configured_heads →
        ∃ r, request_for cfg.known_heads hd = some r ∧ r ∈ cfg'.requests) ∧
      Request.apply ∈ cfg'.requests) := by
  constructor
  · intro cfg' htest
    rw [Configuration.test] at htest
    rcases Option.map_eq_some'.mp htest with ⟨c, hc, hcfg'⟩
    obtain ⟨hcov1, hcov2⟩ := configure_remaining_heads_covers hc
    refine ⟨?_, ?_, ?_⟩
    · intro hd hmem
      rw [← hcfg']
      exact hcov1 hd hmem
    · intro hd hmem hst
      rw [← hcfg']
      obtain ⟨r, hr1, hr2⟩ := hcov2 hd hmem hst
      exact ⟨r, hr1, List.mem_append_left _ hr2⟩
    · rw [← hcfg']
      simp
  · intro cfg' happly
    rw [Configuration.apply] at happly
    rcases Option.map_eq_some'.mp happly with ⟨c, hc, hcfg'⟩
    obtain ⟨hcov1, hcov2⟩ := configure_remaining_heads_covers hc
    refine ⟨?_, ?_, ?_⟩
    · intro hd hmem
      rw [← hcfg']
      exact hcov1 hd hmem
    · intro hd hmem hst
      rw [← hcfg']
      obtain ⟨r, hr1, hr2⟩ := hcov2 hd hmem hst
      exact ⟨r, hr1, List.mem_append_left _ hr2⟩
    · rw [← hcfg']
      simp

/-- C3 witness: finalizing a concrete transaction where only "A" was
explicitly staged also stages the disabled head "B". -/
theorem c3_finalize_stages_all_heads_witness :
    ("B" : String) ∈ (["A", "B"] : List String) :=
  ((c3_finalize_stages_all_heads
      { cosmic_obj := false, cosmic_output_manager := false, adaptive_sync_ext_ok := false,
        known_heads :=
          [{ OutputHead.new 1 none with name := "A", enabled := true },
           { OutputHead.new 2 none with name := "B" }],
        configured_heads := ["A"], requests := [] }).1
    { cosmic_obj := false, cosmic_output_manager := false, adaptive_sync_ext_ok := false,
      known_heads :=
        [{ OutputHead.new 1 none with name := "A", enabled := true },
         { OutputHead.new 2 none with name := "B" }],
      configured_heads := ["A", "B"],
      requests := [Request.disable_head 2, Request.test] }
    (by decide)).1
    { OutputHead.new 2 none with name := "B" } (by decide)

end CosmicRandr

namespace CosmicRandr

/-! Claim C10: panic conditions of finalization. -/

/-- C10 counterexample: a snapshot with a single head — names trivially
pairwise distinct — whose mirror source resolves (to itself) and with the
vendor extension present, yet `test` panics (`none`): the auto-staging pass
calls `mirror_head(name, name)`, which fails with `MirroringItself` and is
unwrapped.  This falsifies the claim's clause that pairwise-distinct names,
resolvable mirror sources and extension presence make the unwraps
infallible. -/
theorem c10_self_mirror_panics_cex :
    ({ OutputHead.new 1 none with
        name := "S", enabled := true, mirroring := some ("S") } : OutputHead).mirroring =
      some ({ OutputHead.new 1 none with
        name := "S", enabled := true, mirroring := some ("S") } : OutputHead).name ∧
    Configuration.test
      { cosmic_obj := true, cosmic_output_manager := true, adaptive_sync_ext_ok := true,
        known_heads :=
          [{ OutputHead.new 1 none with name := "S", enabled := true, mirroring := some ("S") }],
        configured_heads := [], requests := [] } = none := by
  decide

/-- C10 amended: finalization is panic-free only under preconditions the
public interface does not check.  `test`/`apply` panic when the snapshot
holds two heads sharing one unstaged name, or an enabled unstaged head
whose mirroring source resolves to no snapshot head, or an enabled
unstaged mirroring head while the vendor extension object is absent.
Conversely, with pairwise-distinct names and every enabled unstaged
mirroring head having the extension present and a resolvable source
different from its own name, the internal unwraps never fail. -/
theorem c10_finalize_panic_conditions :
    (∀ (cfg : Configuration) (h1 h2 : OutputHead),
      List.Sublist [h1, h2] cfg.known_heads → h1.name = h2.name →
      cfg.configured_heads.contains h1.name = false →
      cfg.test = none ∧ cfg.apply = none) ∧
    (∀ (cfg : Configuration) (h : OutputHead) (src : String),
      h ∈ cfg.known_heads → cfg.configured_heads.contains h.name = false →
      h.enabled = true → h.mirroring = some src →
      (∀ k ∈ cfg.known_heads, ¬k.name = src) →
      cfg.test = none ∧ cfg.apply = none) ∧
    (∀ (cfg : Configuration) (h : OutputHead) (src : String),
      h ∈ cfg.known_heads → cfg.configured_heads.contains h.name = false →
      h.enabled = true → h.mirroring = some src → cfg.cosmic_obj = false →
      cfg.test = none ∧ cfg.apply = none) ∧
    (∀ cfg : Configuration,
      List.Pairwise (fun a b => ¬a.name = b.name) cfg.known_heads →
      (∀ h ∈ cfg.known_heads, cfg.configured_heads.contains h.name = false →
        h.enabled = true → ∀ src, h.mirroring = some src →
        cfg.cosmic_obj = true ∧ ¬src = h.name ∧ ∃ k ∈ cfg.known_heads, k.name = src) →
      (cfg.test).isSome = true ∧ (cfg.apply).isSome = true) := by
  refine ⟨?_, ?_, ?_, ?_⟩
  · intro cfg h1 h2 hsub hname hcon
    have hgo := configure_go_dup cfg.known_heads cfg cfg.configured_heads h1 h2 hsub hname hcon
    constructor
    · rw [Configuration.test, Configuration.configure_remaining_heads, hgo]
      rfl
    · rw [Configuration.apply, Configuration.configure_remaining_heads, hgo]
      rfl
  · intro cfg h src hmem hcon hen hmir hsrc
    have hgo := configure_go_mirror_fail cfg.known_heads cfg cfg.configured_heads h src
      hmem hcon hen hmir (Or.inr hsrc)
    constructor
    · rw [Configuration.test, Configuration.configure_remaining_heads, hgo]
      rfl
    · rw [Configuration.apply, Configuration.configure_remaining_heads, hgo]
      rfl
  · intro cfg h src hmem hcon hen hmir hnc
    have hgo := configure_go_mirror_fail cfg.known_heads cfg cfg.configured_heads h src
      hmem hcon hen hmir (Or.inl hnc)
    constructor
    · rw [Configuration.test, Configuration.configure_remaining_heads, hgo]
      rfl
    · rw [Configuration.apply, Configuration.configure_remaining_heads, hgo]
      rfl
  · intro cfg hpair hmirror
    have hstaged : ∀ n ∈ cfg.configured_heads,
        cfg.configured_heads.contains n = true ∨ ∀ h ∈ cfg.known_heads, ¬h.name = n := by
      intro n hn
      left
      simpa using hn
    have hgo := configure_go_ok cfg.known_heads cfg cfg.configured_heads
      (fun h hh => hh) hpair hstaged hmirror
    rcases Option.isSome_iff_exists.mp hgo with ⟨c, hc⟩
    constructor
    · rw [Configuration.test, Configuration.configure_remaining_heads, hc]
      rfl
    · rw [Configuration.apply, Configuration.configure_remaining_heads, hc]
      rfl

/-- C10 amended, witness: the no-panic direction evaluated on a concrete
well-formed snapshot — "A" mirrors "B", extension present — where
finalization succeeds. -/
theorem c10_finalize_panic_conditions_witness :
    (Configuration.test
      { cosmic_obj := true, cosmic_output_manager := true, adaptive_sync_ext_ok := true,
        known_heads :=
          [{ OutputHead.new 1 none with name := "A", enabled := true, mirroring := some ("B") },
           { OutputHead.new 2 none with name := "B", enabled := true }],
        configured_heads := [], requests := [] }).isSome = true :=
  ((c10_finalize_panic_conditions).2.2.2
    { cosmic_obj := true, cosmic_output_manager := true, adaptive_sync_ext_ok := true,
      known_heads :=
        [{ OutputHead.new 1 none with name := "A", enabled := true, mirroring := some ("B") },
         { OutputHead.new 2 none with name := "B", enabled := true }],
      configured_heads := [], requests := [] }
    (by decide) (by decide)).1

end CosmicRandr

namespace CosmicRandr

/-! Claim C7: nearest-candidate and side selection of the auto-layout. -/

/-- A scan update either leaves the accumulator unchanged (its tracked
value already at most the offered one) or adopts the offered value and
side, setting the `nearer` flag. -/
theorem scan_upd_fired_or_not (acc : ScanAcc) (v : ℚ) (s : NearestSide) :
    (scan_upd acc v s = acc ∧ ∃ w, acc.nearest = some w ∧ w ≤ v) ∨
    (scan_upd acc v s = { nearest := some v, nearest_side := s, nearer := true } ∧
      ∀ w, acc.nearest = some w → v < w) := by
  rw [scan_upd]
  cases hn : acc.nearest with
  | none =>
    right
    refine ⟨by simp [opt_gt, hn], ?_⟩
    intro w hw
    exact Option.noConfusion hw
  | some a =>
    by_cases hlt : v < a
    · right
      refine ⟨by simp [opt_gt, hn, hlt], ?_⟩
      intro w hw
      injection hw with hw1
      exact hw1 ▸ hlt
    · left
      refine ⟨by simp [opt_gt, hn, hlt], a, rfl, le_of_not_lt hlt⟩

/-- Chain of scan updates over a list of (value, side) offers. -/
def upd_list (acc : ScanAcc) : List (ℚ × NearestSide) → ScanAcc
  | [] => acc
  | (v, s) :: rest => upd_list (scan_upd acc v s) rest

/-- Characterisation of a chain of scan updates: either nothing fired and
the accumulator survives with a tracked value at most every offer, or the
result tracks some offered pair, minimal among the initial value and all
offers. -/
theorem upd_list_props :
    ∀ (ps : List (ℚ × NearestSide)) (acc : ScanAcc),
      (upd_list acc ps = acc ∧ ∀ p ∈ ps, ∃ w, acc.nearest = some w ∧ w ≤ p.1) ∨
      (∃ u, (upd_list acc ps).nearest = some u ∧ (upd_list acc ps).nearer = true ∧
        (∀ w, acc.nearest = some w → u ≤ w) ∧ (∀ p ∈ ps, u ≤ p.1) ∧
        (u, (upd_list acc ps).nearest_side) ∈ ps) := by
  intro ps
  induction ps with
  | nil =>
    intro acc
    left
    exact ⟨rfl, by simp⟩
  | cons p rest ih =>
    intro acc
    obtain ⟨v, s⟩ := p
    rcases scan_upd_fired_or_not acc v s with ⟨heq, w0, hw0, hwv⟩ | ⟨heq, hlt⟩
    · have hrw : upd_list acc ((v, s) :: rest) = upd_list acc rest := by
        rw [upd_list, heq]
      rcases ih acc with ⟨heq2, hall⟩ | ⟨u, hu1, hu2, hu3, hu4, hu5⟩
      · left
        rw [hrw, heq2]
        refine ⟨rfl, ?_⟩
        intro q hq
        rcases List.mem_cons.mp hq with hq1 | hq2
        · exact hq1 ▸ ⟨w0, hw0, hwv⟩
        · exact hall q hq2
      · right
        rw [hrw]
        refine ⟨u, hu1, hu2, hu3, ?_, List.mem_cons_of_mem _ hu5⟩
        intro q hq
        rcases List.mem_cons.mp hq with hq1 | hq2
        · have huw0 := hu3 w0 hw0
          rw [hq1]
          exact le_trans huw0 hwv
        · exact hu4 q hq2
    · have hrw : upd_list acc ((v, s) :: rest) =
          upd_list { nearest := some v, nearest_side := s, nearer := true } rest := by
        rw [upd_list, heq]
      rcases ih { nearest := some v, nearest_side := s, nearer := true } with
        ⟨heq2, hall⟩ | ⟨u, hu1, hu2, hu3, hu4, hu5⟩
      · right
        rw [hrw, heq2]
        refine ⟨v, rfl, rfl, ?_, ?_, List.mem_cons_self _ _⟩
        · intro w hw
          exact le_of_lt (hlt w hw)
        · intro q hq
          rcases List.mem_cons.mp hq with hq1 | hq2
          · rw [hq1]
          · obtain ⟨w', hw', hle'⟩ := hall q hq2
            injection hw' with hw1
            exact hw1 ▸ hle'
      · right
        rw [hrw]
        refine ⟨u, hu1, hu2, ?_, ?_, List.mem_cons_of_mem _ hu5⟩
        · intro w hw
          exact le_of_lt (lt_of_le_of_lt (hu3 v rfl) (hlt w hw))
        · intro q hq
          rcases List.mem_cons.mp hq with hq1 | hq2
          · exact hq1 ▸ hu3 v rfl
          · exact hu4 q hq2

/-- The four (value, side) offers one candidate produces, in scan order. -/
def pairs_for (new_region other : Rectangle) : List (ℚ × NearestSide) :=
  [(dist_sq other.east_point new_region.center * (25 / 16), NearestSide.east),
   (dist_sq other.west_point new_region.center * (25 / 16), NearestSide.west),
   (dist_sq other.north_point new_region.center, NearestSide.north),
   (dist_sq other.south_point new_region.center, NearestSide.south)]

/-- An offered pair's value is the candidate's score for that side. -/
theorem pairs_for_score {new_region other : Rectangle} {u : ℚ} {s : NearestSide}
    (h : (u, s) ∈ pairs_for new_region other) : u = side_score new_region other s := by
  simp only [pairs_for, List.mem_cons, List.not_mem_nil, or_false, Prod.mk.injEq] at h
  rcases h with ⟨h1, h2⟩ | ⟨h1, h2⟩ | ⟨h1, h2⟩ | ⟨h1, h2⟩ <;> subst h2 <;> exact h1

/-- Every side's score is offered. -/
theorem score_mem_pairs_for (new_region other : Rectangle) (s : NearestSide) :
    (side_score new_region other s, s) ∈ pairs_for new_region other := by
  cases s <;> simp [pairs_for, side_score]

/-- The scan accumulator a loop iteration starts from. -/
def scan_acc_of (st : SelState) : ScanAcc :=
  { nearest := st.nearest, nearest_side := st.nearest_side, nearer := false }

/-- The scan loop body in terms of the update chain. -/
theorem scan_step_via_upd (new_region : Rectangle) (st : SelState) (other : Rectangle) :
    scan_step new_region st other =
      { nearest := (upd_list (scan_acc_of st) (pairs_for new_region other)).nearest
        nearest_side := (upd_list (scan_acc_of st) (pairs_for new_region other)).nearest_side
        nearest_region :=
          if (upd_list (scan_acc_of st) (pairs_for new_region other)).nearer then other
          else st.nearest_region } := rfl

end CosmicRandr

namespace CosmicRandr

/-- Selection invariant: after scanning a nonempty prefix, the tracked
minimum is the score of the recorded candidate and side, the candidate was
seen, and no seen candidate offers a smaller score on any side. -/
def sel_inv (new_region : Rectangle) (st : SelState) (seen : List Rectangle) : Prop :=
  (st = {} ∧ seen = []) ∨
  (∃ v, st.nearest = some v ∧
    v = side_score new_region st.nearest_region st.nearest_side ∧
    st.nearest_region ∈ seen ∧
    ∀ c ∈ seen, ∀ s, v ≤ side_score new_region c s)

/-- The scan loop body preserves the selection invariant. -/
theorem scan_step_sel_inv {new_region : Rectangle} {st : SelState} {seen : List Rectangle}
    (hinv : sel_inv new_region st seen) (c : Rectangle) :
    sel_inv new_region (scan_step new_region st c) (seen ++ [c]) := by
  rw [scan_step_via_upd]
  rcases upd_list_props (pairs_for new_region c) (scan_acc_of st) with
    ⟨heq, hall⟩ | ⟨u, hu1, hu2, hu3, hu4, hu5⟩
  · rcases hinv with ⟨hst, hseen⟩ | ⟨v, hv1, hv2, hv3, hv4⟩
    · exfalso
      obtain ⟨w, hw, -⟩ := hall _ (List.mem_cons_self _ _)
      rw [heq] at *
      have : (scan_acc_of st).nearest = none := by
        rw [hst]
        rfl
      rw [this] at hw
      exact Option.noConfusion hw
    · right
      rw [heq]
      refine ⟨v, hv1, hv2, List.mem_append_left _ hv3, ?_⟩
      intro c' hc' s
      rcases List.mem_append.mp hc' with hc1 | hc2
      · exact hv4 c' hc1 s
      · have hceq : c' = c := by simpa using hc2
        subst hceq
        obtain ⟨w, hw, hle⟩ := hall _ (score_mem_pairs_for new_region c' s)
        have hwv : w = v := by
          have : (scan_acc_of st).nearest = st.nearest := rfl
          rw [this, hv1] at hw
          injection hw with h1
          exact h1.symm
        exact hwv ▸ hle
  · right
    rw [hu2]
    simp only [if_true]
    refine ⟨u, hu1, pairs_for_score hu5, List.mem_append_right _ (by simp), ?_⟩
    intro c' hc' s
    rcases List.mem_append.mp hc' with hc1 | hc2
    · rcases hinv with ⟨hst, hseen⟩ | ⟨v, hv1, hv2, hv3, hv4⟩
      · rw [hseen] at hc1
        exact absurd hc1 (List.not_mem_nil c')
      · have huv : u ≤ v := hu3 v (by rw [scan_acc_of]; exact hv1)
        exact le_trans huv (hv4 c' hc1 s)
    · have hceq : c' = c := by simpa using hc2
      subst hceq
      exact hu4 _ (score_mem_pairs_for new_region c' s)

/-- The selection invariant holds after folding the scan over any list. -/
theorem select_fold_inv (new_region : Rectangle) :
    ∀ (l : List Rectangle) (st : SelState) (seen : List Rectangle),
      sel_inv new_region st seen →
      sel_inv new_region (l.foldl (scan_step new_region) st) (seen ++ l) := by
  intro l
  induction l with
  | nil =>
    intro st seen h
    simpa using h
  | cons c rest ih =>
    intro st seen h
    have h1 := scan_step_sel_inv h c
    have h2 := ih (scan_step new_region st c) (seen ++ [c]) h1
    simpa [List.append_assoc] using h2

/-- C7 counterexample: moved rectangle (-1,-1,2,2) (center at the origin)
against candidate (3,3,4,2).  The code tracks Euclidean distances — the
east side costs 5·1.25 = 6.25 and the north side √34 ≈ 5.83, so the scan
selects north; under the claimed rule (squared distances, east weighted by
1.25) the east value 31.25 is strictly below the north value 34, so the
claimed global minimum is east.  The selection therefore does not minimise
the claimed per-side values. -/
theorem c7_sqrt_vs_squared_cex :
    (select_nearest { x := -1, y := -1, width := 2, height := 2 }
        [{ x := 3, y := 3, width := 4, height := 2 }]).nearest_side = NearestSide.north ∧
    claimed_side_score { x := -1, y := -1, width := 2, height := 2 }
        { x := 3, y := 3, width := 4, height := 2 } NearestSide.east <
      claimed_side_score { x := -1, y := -1, width := 2, height := 2 }
        { x := 3, y := 3, width := 4, height := 2 } NearestSide.north := by
  constructor
  · norm_num [select_nearest, List.foldl, scan_step, scan_upd, opt_gt, dist_sq,
      Rectangle.center, Rectangle.center_x, Rectangle.center_y, Rectangle.east_point,
      Rectangle.west_point, Rectangle.north_point, Rectangle.south_point]
  · norm_num [claimed_side_score, dist_sq, Rectangle.center, Rectangle.center_x,
      Rectangle.center_y, Rectangle.east_point, Rectangle.north_point]

/-- C7 amended: for every moved rectangle and nonempty candidate list,
the scan selects a seen candidate and side achieving the global minimum of
the per-candidate, per-side comparison values the code tracks — the
squares of the Euclidean distances from the moved rectangle's center to
the candidate's east/west edge midpoints scaled by (1.25)² = 25/16 and to
its north/south edge midpoints unweighted (the code compares the distances
themselves scaled by 1.25; squaring is order-preserving, and the squared
form is the exact comparison the selection performs). -/
theorem c7_selection_minimises_tracked_score (new_region : Rectangle)
    (others : List Rectangle) (hne : others ≠ []) :
    (select_nearest new_region others).nearest_region ∈ others ∧
    (select_nearest new_region others).nearest =
      some (side_score new_region (select_nearest new_region others).nearest_region
        (select_nearest new_region others).nearest_side) ∧
    ∀ c ∈ others, ∀ s,
      side_score new_region (select_nearest new_region others).nearest_region
          (select_nearest new_region others).nearest_side ≤
        side_score new_region c s := by
  have hinv := select_fold_inv new_region others {} [] (Or.inl ⟨rfl, rfl⟩)
  rw [List.nil_append] at hinv
  rcases hinv with ⟨-, hseen⟩ | ⟨v, hv1, hv2, hv3, hv4⟩
  · exact absurd hseen hne
  · rw [select_nearest]
    refine ⟨hv3, ?_, ?_⟩
    · rw [hv1, hv2]
    · intro c hc s
      exact hv2 ▸ hv4 c hc s

/-- C7 amended, witness: the spec's adjacency example — moved 1920×1080 at
the origin, candidate at (1920,0,1920,1080) — has its selected candidate
among the candidates. -/
theorem c7_selection_minimises_tracked_score_witness :
    (select_nearest { x := 0, y := 0, width := 1920, height := 1080 }
        [{ x := 1920, y := 0, width := 1920, height := 1080 }]).nearest_region ∈
      ([{ x := 1920, y := 0, width := 1920, height := 1080 }] : List Rectangle) :=
  (c7_selection_minimises_tracked_score
    { x := 0, y := 0, width := 1920, height := 1080 }
    [{ x := 1920, y := 0, width := 1920, height := 1080 }] (by simp)).1

end CosmicRandr

namespace CosmicRandr

/-! Claim C8: attachment, clamping and snapping of the auto-layout. -/

/-- C8: after a candidate and side are chosen, the moved rectangle is
placed flush against that side (east ⇒ x = candidate.x − width, west ⇒
x = candidate.x + candidate.width, and so on); the perpendicular
coordinate is the max/min clamp of the original coordinate into
[candidate − moved extent + 4, candidate + candidate extent − 4], which
lies in that interval whenever the two extents total at least 8; each axis
then snaps independently to the leading or trailing edge whenever the
remaining delta is at most 4, and is left unchanged when neither delta is
within 4; `display` is exactly this composition after the scan. -/
theorem c8_attach_clamp_snap (new_region nearest_region a : Rectangle) :
    ((attach new_region nearest_region NearestSide.east).x =
      nearest_region.x - new_region.width) ∧
    ((attach new_region nearest_region NearestSide.west).x =
      nearest_region.x + nearest_region.width) ∧
    ((attach new_region nearest_region NearestSide.north).y =
      nearest_region.y - new_region.height) ∧
    ((attach new_region nearest_region NearestSide.south).y =
      nearest_region.y + nearest_region.height) ∧
    ((attach new_region nearest_region NearestSide.east).y =
      min (max new_region.y (nearest_region.y - new_region.height + 4))
        (nearest_region.y + nearest_region.height - 4)) ∧
    (8 ≤ new_region.height + nearest_region.height →
      nearest_region.y - new_region.height + 4 ≤
        (attach new_region nearest_region NearestSide.east).y ∧
      (attach new_region nearest_region NearestSide.east).y ≤
        nearest_region.y + nearest_region.height - 4) ∧
    ((|a.x - nearest_region.x| ≤ 4 ∨
        |a.x + a.width - (nearest_region.x + nearest_region.width)| ≤ 4) →
      (snap_x nearest_region a).x = nearest_region.x ∨
      (snap_x nearest_region a).x = nearest_region.x + nearest_region.width - a.width) ∧
    (¬|a.x - nearest_region.x| ≤ 4 →
      ¬|a.x + a.width - (nearest_region.x + nearest_region.width)| ≤ 4 →
      (snap_x nearest_region a).x = a.x) ∧
    ((|a.y - nearest_region.y| ≤ 4 ∨
        |a.y + a.height - (nearest_region.y + nearest_region.height)| ≤ 4) →
      (snap_y nearest_region a).y = nearest_region.y ∨
      (snap_y nearest_region a).y = nearest_region.y + nearest_region.height - a.height) ∧
    (¬|a.y - nearest_region.y| ≤ 4 →
      ¬|a.y + a.height - (nearest_region.y + nearest_region.height)| ≤ 4 →
      (snap_y nearest_region a).y = a.y) ∧
    (∀ others : List Rectangle, display new_region others =
      snap_y (select_nearest new_region others).nearest_region
        (snap_x (select_nearest new_region others).nearest_region
          (attach new_region (select_nearest new_region others).nearest_region
            (select_nearest new_region others).nearest_side))) := by
  refine ⟨rfl, rfl, rfl, rfl, rfl, ?_, ?_, ?_, ?_, ?_, fun others => rfl⟩
  · intro hext
    constructor
    · apply le_min
      · exact le_max_right _ _
      · linarith
    · exact min_le_right _ _
  · intro hsnap
    by_cases h1 : |a.x - nearest_region.x| ≤ 4
    · by_cases h2 : |a.width - nearest_region.width| ≤ 4
      · simp [snap_x, h1, h2]
      · simp [snap_x, h1, h2]
    · rcases hsnap with hs | hs
      · exact absurd hs h1
      · simp [snap_x, h1, hs]
  · intro h1 h2
    simp [snap_x, h1, h2]
  · intro hsnap
    by_cases h1 : |a.y - nearest_region.y| ≤ 4
    · by_cases h2 : |a.height - nearest_region.height| ≤ 4
      · simp [snap_y, h1, h2]
      · simp [snap_y, h1, h2]
    · rcases hsnap with hs | hs
      · exact absurd hs h1
      · simp [snap_y, h1, hs]
  · intro h1 h2
    simp [snap_y, h1, h2]

/-- C8 witness: the spec's example — moved 1920×1080 at the origin,
candidate at (1920,0,1920,1080) — the clamped perpendicular coordinate
lies within the 4-pixel-overlap interval. -/
theorem c8_attach_clamp_snap_witness :
    ((0 : ℚ) - 1080 + 4 ≤
      (attach { x := 0, y := 0, width := 1920, height := 1080 }
        { x := 1920, y := 0, width := 1920, height := 1080 } NearestSide.east).y) ∧
    ((attach { x := 0, y := 0, width := 1920, height := 1080 }
        { x := 1920, y := 0, width := 1920, height := 1080 } NearestSide.east).y ≤
      (0 : ℚ) + 1080 - 4) :=
  (c8_attach_clamp_snap
    { x := 0, y := 0, width := 1920, height := 1080 }
    { x := 1920, y := 0, width := 1920, height := 1080 }
    { x := 0, y := 0, width := 1920, height := 1080 }).2.2.2.2.2.1
    (by norm_num)

end CosmicRandr
